import Mathlib

/-!
# carlosinho/invoice: the layout engine and its totals arithmetic

A shallow embedding of `src/main.go`, `src/pdf.go` and `src/currency.go`.

Modelling conventions
* Go `string` is `String` (a sequence of Unicode code points; byte sequences that
  are not valid UTF-8 are outside the model).
* Go `float64` is `ℚ`: arithmetic is exact, there is no NaN, infinity or rounding.
* Go `int` is `Int`.
* `*gopdf.GoPdf` is the record `GoPdf`: the cursor, the selected font and colours,
  and the list of everything drawn so far. The width of a text under a font is a
  parameter `tw` of every writer, since it is a property of the font files.
-/

set_option autoImplicit false

namespace InvoicePdf

/-! ## Go standard library: the string functions the program calls -/

/-- Go `unicode.IsSpace`: the Unicode White_Space code points. -/
def isSpace (c : Char) : Bool :=
  let n := c.toNat
  (9 ≤ n && n ≤ 13) || n == 32 || n == 0x85 || n == 0xA0 || n == 0x1680 ||
    (0x2000 ≤ n && n ≤ 0x200A) || n == 0x2028 || n == 0x2029 || n == 0x202F ||
    n == 0x205F || n == 0x3000

/-- The scan of Go `strings.FieldsFunc`: `cur` is the field being read (empty when the
scan is between fields); a space closes a non-empty field, the end of the text closes
the last one. -/
def fieldsGo (cur : List Char) : List Char → List (List Char)
  | [] => if cur = [] then [] else [cur]
  | c :: cs =>
    if isSpace c then
      if cur = [] then fieldsGo [] cs else cur :: fieldsGo [] cs
    else fieldsGo (cur ++ [c]) cs

/-- Go `strings.Fields`: the maximal runs of non-space characters, in order. -/
def Fields (s : String) : List String :=
  (fieldsGo [] s.data).map String.mk

/-- Go `strings.Join`. -/
def Join : List String → String → String
  | [], _ => ""
  | [a], _ => a
  | a :: b :: rest, sep => a ++ sep ++ Join (b :: rest) sep

/-- Two decimal digits of a number below 100. -/
def pad2 (n : Nat) : String :=
  if n < 10 then "0" ++ toString n else toString n

/-- Go `strconv.FormatFloat(x, 'f', 2, 64)` on an exact value: sign, integer part, a
point and two decimals, the value rounded to the nearest hundredth, a tie going to
the even hundredth. -/
def FormatFloat (x : ℚ) : String :=
  let n := x.num.natAbs * 100
  let q := n / x.den
  let r := n % x.den
  let cents := if x.den < 2 * r ∨ (2 * r = x.den ∧ q % 2 = 1) then q + 1 else q
  (if x < 0 then "-" else "") ++ toString (cents / 100) ++ "." ++ pad2 (cents % 100)

/-- Go `strings.ReplaceAll(s, "\\n", "\n")` on the characters of `s`: every
backslash followed by `n`, read left to right, becomes one line feed. -/
def replaceEscapedNewlines : List Char → List Char
  | '\\' :: 'n' :: cs => '\n' :: replaceEscapedNewlines cs
  | c :: cs => c :: replaceEscapedNewlines cs
  | [] => []

/-- The scan of Go `strings.Split(s, "\n")`: `cur` is the piece being read. -/
def splitGo (cur : List Char) : List Char → List (List Char)
  | [] => [cur]
  | c :: cs => if c = '\n' then cur :: splitGo [] cs else splitGo (cur ++ [c]) cs

/-- The lines of a multi-line field: `strings.Split(strings.ReplaceAll(s, "\\n", "\n"), "\n")`. -/
def splitLines (s : String) : List String :=
  (splitGo [] (replaceEscapedNewlines s.data)).map String.mk

/-! ## Data model (`main.go`) -/

/-- The invoice record (`main.go`, `type Invoice`). -/
structure Invoice where
  Id : String
  Title : String
  Logo : String
  LogoScale : ℚ
  From : String
  To : String
  Date : String
  SaleDate : String
  Due : String
  BillingPeriod : String
  Items : List String
  Quantities : List Int
  Rates : List ℚ
  Tax : ℚ
  TaxName : String
  Discount : ℚ
  Paid : ℚ
  Currency : String
  Lang : String
  PaymentMethod : String
  Bank : String
  Swift : String
  AccountNo : String
  Note : String

/-- The language pack (`main.go`, `type LangStrings`). -/
structure LangStrings where
  Title : String
  InvNo : String
  IssueDate : String
  SaleDate : String
  DueDate : String
  BillingPeriod : String
  Seller : String
  Buyer : String
  Item : String
  Qty : String
  UnitNet : String
  TotalNet : String
  Tax : String
  NA : String
  TotalGross : String
  Notes : String
  Payment : String
  Bank : String
  Swift : String
  AccountNo : String
  TotalNetPrice : String
  Rate : String
  Amount : String
  Discount : String
  TotalGrossPrice : String
  PaidLabel : String
  TotalDue : String

/-! ## Currency symbols (`currency.go`) -/

/-- The `currencySymbols` map, as its list of entries. -/
def currencySymbols : List (String × String) :=
  [("USD", "$"), ("EUR", "€"), ("PLN", "zł"), ("GBP", "£"), ("JPY", "¥"), ("CNY", "¥"),
   ("INR", "₹"), ("RUB", "₽"), ("KRW", "₩"), ("BRL", "R$"), ("SGD", "SGD$"), ("ZAR", "R")]

/-- The Go map index `currencySymbols[code]`: the registered symbol, and the empty
string for a code that is not a key of the map. -/
def currencySymbol (code : String) : String :=
  (currencySymbols.lookup code).getD ""

/-! ## The canvas (`gopdf.GoPdf`) -/

/-- An RGB colour. -/
abbrev Color := Nat × Nat × Nat

/-- One thing put on the page. -/
inductive Draw where
  | text (x y : ℚ) (font : String) (size : ℚ) (color : Color) (s : String)
  | line (x1 y1 x2 y2 : ℚ) (color : Color)
  deriving DecidableEq

/-- The canvas state the writers share: cursor, left margin, selected font and
colours, and what has been drawn so far, oldest first. -/
structure GoPdf where
  x : ℚ
  y : ℚ
  marginLeft : ℚ
  font : String
  fontSize : ℚ
  textColor : Color
  strokeColor : Color
  out : List Draw

/-- The width of a text under a font family and size. -/
abbrev TextWidth := String → ℚ → String → ℚ

namespace GoPdf

def GetX (p : GoPdf) : ℚ := p.x

def GetY (p : GoPdf) : ℚ := p.y

def MarginLeft (p : GoPdf) : ℚ := p.marginLeft

def SetX (p : GoPdf) (x : ℚ) : GoPdf := { p with x := x }

def SetY (p : GoPdf) (y : ℚ) : GoPdf := { p with y := y }

def SetXY (p : GoPdf) (x y : ℚ) : GoPdf := { p with x := x, y := y }

/-- The call `Br(h)`: down by `h`, back to the left margin. -/
def Br (p : GoPdf) (h : ℚ) : GoPdf := { p with y := p.y + h, x := p.marginLeft }

def SetFont (p : GoPdf) (family : String) (size : ℚ) : GoPdf :=
  { p with font := family, fontSize := size }

def SetTextColor (p : GoPdf) (r g b : Nat) : GoPdf := { p with textColor := (r, g, b) }

def SetStrokeColor (p : GoPdf) (r g b : Nat) : GoPdf := { p with strokeColor := (r, g, b) }

def MeasureTextWidth (tw : TextWidth) (p : GoPdf) (s : String) : ℚ :=
  tw p.font p.fontSize s

/-- The call `Cell(nil, s)`: the text is drawn at the cursor in the selected font and
colour, and the cursor moves right by the width of the text. -/
def Cell (tw : TextWidth) (p : GoPdf) (s : String) : GoPdf :=
  { p with
    out := p.out ++ [Draw.text p.x p.y p.font p.fontSize p.textColor s],
    x := p.x + tw p.font p.fontSize s }

def Line (p : GoPdf) (x1 y1 x2 y2 : ℚ) : GoPdf :=
  { p with out := p.out ++ [Draw.line x1 y1 x2 y2 p.strokeColor] }

end GoPdf

/-! ## Layout constants (`pdf.go`) -/

def pageWidth : ℚ := 595.28

def quantityColumnOffset : ℚ := 260

def rateColumnOffset : ℚ := 290

def amountColumnOffset : ℚ := 360

def taxColumnOffset : ℚ := 430

def grossColumnOffset : ℚ := 480

def bodyFontSize : ℚ := 9

def bodyLineHeight : ℚ := 15

def itemsToNotesGap : ℚ := 52

/-! ## Item rows (`pdf.go`, `writeRow`) -/

/-- One pass of the word-wrap loop of `writeRow` (the body of `for _, w := range words`):
the state is the finished lines and the line being filled. -/
def wrapStep (measure : String → ℚ) (maxItemWidth : ℚ)
    (st : List String × String) (w : String) : List String × String :=
  let lines := st.1
  let current := st.2
  let candidate := if current ≠ "" then current ++ " " ++ w else w
  let width := measure candidate
  if width ≤ maxItemWidth ∨ current = "" then (lines, candidate)
  else (lines ++ [current], w)

/-- The word-wrap of `writeRow` (`pdf.go` lines 246 to 264): the loop over the words
of the item and the commit of the last line. -/
def wrapLines (measure : String → ℚ) (maxItemWidth : ℚ) (item : String) : List String :=
  let words := Fields item
  let st := words.foldl (wrapStep measure maxItemWidth) ([], "")
  if st.2 ≠ "" then st.1 ++ [st.2] else st.1

/-- The writer `writeRow`; `ls` and `file` are the globals `langStrings` and `file`. -/
def writeRow (tw : TextWidth) (ls : LangStrings) (file : Invoice) (pdf : GoPdf)
    (item : String) (quantity : Int) (rate : ℚ) : GoPdf :=
  let pdf := pdf.SetFont "Inter" bodyFontSize
  let pdf := pdf.SetTextColor 0 0 0
  let totalNet := (quantity : ℚ) * rate
  let amountNet := FormatFloat totalNet
  let leftMargin := pdf.MarginLeft
  let maxItemWidth := quantityColumnOffset - 10 - leftMargin
  let lines := wrapLines (pdf.MeasureTextWidth tw) maxItemWidth item
  let lineHeight := bodyLineHeight
  let pdf := pdf.SetX leftMargin
  let pdf := if lines.length > 0 then pdf.Cell tw (lines.headD "") else pdf.Cell tw item
  let pdf := pdf.SetX quantityColumnOffset
  let pdf := pdf.Cell tw (toString quantity)
  let pdf := pdf.SetX rateColumnOffset
  let pdf := pdf.Cell tw (currencySymbol file.Currency ++ FormatFloat rate)
  let pdf := pdf.SetX amountColumnOffset
  let pdf := pdf.Cell tw (currencySymbol file.Currency ++ amountNet)
  let pdf := pdf.SetX taxColumnOffset
  let taxRateText := if file.Tax ≠ 0 then FormatFloat (file.Tax * 100) ++ "%" else ls.NA
  let pdf := pdf.Cell tw taxRateText
  let pdf := pdf.SetX grossColumnOffset
  let totalTaxForItem := totalNet * file.Tax
  let totalGross := totalNet + totalTaxForItem
  let pdf := pdf.Cell tw (currencySymbol file.Currency ++ FormatFloat totalGross)
  let pdf := pdf.Br lineHeight
  let pdf := (lines.drop 1).foldl
    (fun p l => ((p.SetX leftMargin).Cell tw l).Br lineHeight) pdf
  pdf.Br 10

/-! ## Totals (`pdf.go`, `writeTotals`) -/

/-- The writer `writeNarrowDivider`. -/
def writeNarrowDivider (pdf : GoPdf) : GoPdf :=
  let pdf := pdf.SetStrokeColor 225 225 225
  let y := pdf.GetY
  let pdf := pdf.Line amountColumnOffset y (pageWidth - 40) y
  pdf.Br 10

/-- The writer `writeTotalWithCode`. -/
def writeTotalWithCode (tw : TextWidth) (file : Invoice) (pdf : GoPdf)
    (label : String) (total : ℚ) (bold : Bool) : GoPdf :=
  let pdf := pdf.SetFont "Inter" bodyFontSize
  let pdf := pdf.SetTextColor 75 75 75
  let pdf := pdf.SetX (amountColumnOffset + 18)
  let pdf := if bold then pdf.SetFont "Inter-Bold" bodyFontSize
    else pdf.SetFont "Inter" bodyFontSize
  let pdf := pdf.Cell tw label
  let pdf := pdf.SetTextColor 0 0 0
  let pdf := pdf.SetX grossColumnOffset
  let value := FormatFloat total ++ " " ++ file.Currency
  let pdf := pdf.Cell tw value
  pdf.Br 20

/-- The writer `writeTotalRaw`. -/
def writeTotalRaw (tw : TextWidth) (pdf : GoPdf) (label : String) (value : String) : GoPdf :=
  let pdf := pdf.SetFont "Inter" bodyFontSize
  let pdf := pdf.SetTextColor 75 75 75
  let pdf := pdf.SetX (amountColumnOffset + 18)
  let pdf := pdf.Cell tw label
  let pdf := pdf.SetTextColor 0 0 0
  let pdf := pdf.SetX grossColumnOffset
  let pdf := pdf.Cell tw value
  pdf.Br 20

/-- The writer `writeTotals`. -/
def writeTotals (tw : TextWidth) (ls : LangStrings) (file : Invoice) (pdf : GoPdf)
    (startY : ℚ) (subtotal : ℚ) (tax : ℚ) (discount : ℚ) : GoPdf :=
  let pdf := pdf.SetY startY
  let pdf := writeTotalWithCode tw file pdf ls.TotalNetPrice subtotal false
  let baseTaxLabel := if file.TaxName ≠ "" then file.TaxName else ls.Tax
  let rateWord := ls.Rate
  let taxRateLabel := baseTaxLabel ++ " " ++ rateWord
  let naText := ls.NA
  let taxRateValue := if file.Tax ≠ 0 then FormatFloat (file.Tax * 100) ++ "%" else naText
  let pdf := writeTotalRaw tw pdf taxRateLabel taxRateValue
  let amountWord := ls.Amount
  let taxAmountLabel := baseTaxLabel ++ " " ++ amountWord
  let pdf := writeTotalWithCode tw file pdf taxAmountLabel tax false
  let pdf := if discount > 0 then writeTotalWithCode tw file pdf ls.Discount discount false
    else pdf
  let totalGross := subtotal + tax - discount
  let pdf := writeTotalWithCode tw file pdf ls.TotalGrossPrice totalGross false
  let pdf := if file.Paid ≠ 0 then writeTotalWithCode tw file pdf ls.PaidLabel file.Paid false
    else pdf
  let totalDue := totalGross - file.Paid
  let pdf := writeNarrowDivider pdf
  writeTotalWithCode tw file pdf ls.TotalDue totalDue true

/-! ## Notes (`pdf.go`, `writeNotes`) -/

/-- The writer `writeNotes`. -/
def writeNotes (tw : TextWidth) (ls : LangStrings) (pdf : GoPdf)
    (notes paymentMethod bank swift accountNo : String) : GoPdf :=
  let pdf := pdf.SetFont "Inter" bodyFontSize
  let pdf := pdf.SetTextColor 55 55 55
  let pdf := pdf.Cell tw ls.Notes
  let pdf := pdf.Br 24
  let pdf := pdf.SetFont "Inter" bodyFontSize
  let pdf := pdf.SetTextColor 0 0 0
  let pdf :=
    if paymentMethod ≠ "" ∨ bank ≠ "" ∨ swift ≠ "" ∨ accountNo ≠ "" then
      let pdf := if paymentMethod ≠ "" then
        (pdf.Cell tw (ls.Payment ++ ": " ++ paymentMethod)).Br bodyLineHeight else pdf
      let pdf := if bank ≠ "" then
        (pdf.Cell tw (ls.Bank ++ ": " ++ bank)).Br bodyLineHeight else pdf
      let pdf := if swift ≠ "" then
        (pdf.Cell tw (ls.Swift ++ ": " ++ swift)).Br bodyLineHeight else pdf
      let pdf := if accountNo ≠ "" then
        (pdf.Cell tw (ls.AccountNo ++ ": " ++ accountNo)).Br bodyLineHeight else pdf
      if notes ≠ "" then pdf.Br bodyLineHeight else pdf
    else pdf
  let notesLines := splitLines notes
  let pdf := notesLines.foldl (fun p l => (p.Cell tw l).Br bodyLineHeight) pdf
  pdf.Br 48

/-! ## Seller and buyer columns (`pdf.go`, `writeSellerBuyerColumns`) -/

def sellerBuyerColSplit : ℚ := 290

/-- The left column of `writeSellerBuyerColumns` (`pdf.go` lines 100 to 113): the seller
label, then one line of `from` after the other, each followed by `Br(bodyLineHeight)`. -/
def sellerColumn (tw : TextWidth) (ls : LangStrings) (pdf : GoPdf) (leftX : ℚ)
    (from_ : String) : GoPdf :=
  let pdf := pdf.SetX leftX
  let pdf := pdf.SetTextColor 75 75 75
  let pdf := pdf.SetFont "Inter" bodyFontSize
  let pdf := pdf.Cell tw ls.Seller
  let pdf := pdf.Br 24
  let pdf := pdf.SetTextColor 55 55 55
  let fromLines := splitLines from_
  (List.range fromLines.length).foldl
    (fun p i =>
      let p := p.SetX leftX
      let p := p.SetFont "Inter" bodyFontSize
      let p := p.Cell tw (fromLines.getD i "")
      p.Br bodyLineHeight) pdf

/-- The right column of `writeSellerBuyerColumns` (`pdf.go` lines 118 to 135): back to
`startY`, the buyer label, then one line of `to` after the other, the first in black. -/
def buyerColumn (tw : TextWidth) (ls : LangStrings) (pdf : GoPdf) (rightX startY : ℚ)
    (to_ : String) : GoPdf :=
  let pdf := pdf.SetXY rightX startY
  let pdf := pdf.SetTextColor 75 75 75
  let pdf := pdf.SetFont "Inter" bodyFontSize
  let pdf := pdf.Cell tw ls.Buyer
  let pdf := pdf.Br 24
  let toLines := splitLines to_
  (List.range toLines.length).foldl
    (fun p i =>
      let p := p.SetX rightX
      let p := if i = 0 then p.SetTextColor 0 0 0 else p.SetTextColor 55 55 55
      let p := p.SetFont "Inter" bodyFontSize
      let p := p.Cell tw (toLines.getD i "")
      p.Br bodyLineHeight) pdf

/-- The writer `writeSellerBuyerColumns`. -/
def writeSellerBuyerColumns (tw : TextWidth) (ls : LangStrings) (pdf : GoPdf)
    (from_ to_ : String) : GoPdf :=
  let startY := pdf.GetY
  let leftX : ℚ := 40
  let rightX := sellerBuyerColSplit
  let pdf := sellerColumn tw ls pdf leftX from_
  let leftBottom := pdf.GetY
  let pdf := buyerColumn tw ls pdf rightX startY to_
  let rightBottom := pdf.GetY
  let pdf := if leftBottom > rightBottom then pdf.SetY leftBottom else pdf.SetY rightBottom
  let pdf := pdf.SetX 40
  pdf.Br 48

/-! ## The generate pipeline (`main.go`, `generateCmd.RunE`) -/

/-- The body of the loop `for i := range file.Items` of `RunE` (`main.go` lines 364 to
383): the state is the canvas and the running subtotal. -/
def itemsLoopBody (tw : TextWidth) (ls : LangStrings) (file : Invoice)
    (st : GoPdf × ℚ) (i : Nat) : GoPdf × ℚ :=
  let q : Int := if file.Quantities.length > i then file.Quantities.getD i 0 else 1
  if q = 0 then st
  else
    let r : ℚ := if file.Rates.length > i then file.Rates.getD i 0 else 0
    (writeRow tw ls file st.1 (file.Items.getD i "") q r, st.2 + (q : ℚ) * r)

/-- The item loop of `RunE`, from `subtotal := 0.0`. -/
def itemsLoop (tw : TextWidth) (ls : LangStrings) (file : Invoice) (pdf : GoPdf) : GoPdf × ℚ :=
  (List.range file.Items.length).foldl (itemsLoopBody tw ls file) (pdf, 0)

/-- Lines 363 to 390 of `generateCmd.RunE`: the item rows, the gap, the notes when
there are any, and the totals block. `pdf` is the canvas as the writers before line
363 left it. -/
def generateCmd.RunE (tw : TextWidth) (ls : LangStrings) (file : Invoice) (pdf : GoPdf) : GoPdf :=
  let st := itemsLoop tw ls file pdf
  let pdf := st.1
  let subtotal := st.2
  let pdf := pdf.Br itemsToNotesGap
  let sectionY := pdf.GetY
  let pdf :=
    if file.Note ≠ "" ∨ file.PaymentMethod ≠ "" ∨ file.Bank ≠ "" ∨ file.Swift ≠ "" ∨
        file.AccountNo ≠ "" then
      writeNotes tw ls pdf file.Note file.PaymentMethod file.Bank file.Swift file.AccountNo
    else pdf
  writeTotals tw ls file pdf sectionY subtotal (subtotal * file.Tax) (subtotal * file.Discount)

/-! ## Output file name (`main.go`, `sanitizeFilename`) -/

/-- Go `strings.ToLower`: `A` to `Z` become `a` to `z`, every other ASCII character
is kept, and a character outside ASCII goes through `lowerRune`, the case table of
the Unicode library (`unicode.ToLower`). -/
def ToLower (lowerRune : Char → Char) (s : String) : String :=
  String.mk (s.data.map fun c =>
    if 65 ≤ c.toNat ∧ c.toNat ≤ 90 then Char.ofNat (c.toNat + 32)
    else if c.toNat < 128 then c
    else lowerRune c)

/-- Go `strings.ReplaceAll(s, " ", "-")`. -/
def replaceSpaces (s : String) : String :=
  String.mk (s.data.map fun c => if c = ' ' then '-' else c)

/-- The character class `[a-z0-9._-]`. -/
def isSafeChar (c : Char) : Bool :=
  (97 ≤ c.toNat && c.toNat ≤ 122) || (48 ≤ c.toNat && c.toNat ≤ 57) ||
    c == '.' || c == '_' || c == '-'

/-- The replacement `regexp.MustCompile("[^a-z0-9._-]").ReplaceAllString(s, "-")`:
each character outside the class becomes a hyphen. -/
def replaceInvalid (s : String) : String :=
  String.mk (s.data.map fun c => if isSafeChar c then c else '-')

/-- The scan of `regexp.MustCompile("-+").ReplaceAllString(s, "-")`: `inRun` says
that the character before was a hyphen, whose run has already been written as one. -/
def collapseDashes (inRun : Bool) : List Char → List Char
  | [] => []
  | c :: cs =>
    if c = '-' then
      if inRun then collapseDashes true cs else '-' :: collapseDashes true cs
    else c :: collapseDashes false cs

/-- The function `sanitizeFilename`. -/
def sanitizeFilename (lowerRune : Char → Char) (id : String) : String :=
  let id := if id = "" then "invoice" else id
  let id := ToLower lowerRune id
  let id := replaceSpaces id
  let id := replaceInvalid id
  let id := String.mk (collapseDashes false id.data)
  id

/-! ## Language pack validation (`main.go`, `validateLang`) -/

/-- The function `validateLang`: `Except.ok ()` is the `nil` error. -/
def validateLang (ls : LangStrings) (code : String) : Except String Unit :=
  let missing : List String := []
  let missing := if ls.Title = "" then missing ++ ["_title"] else missing
  let missing := if ls.InvNo = "" then missing ++ ["_invNo"] else missing
  let missing := if ls.IssueDate = "" then missing ++ ["_issueDate"] else missing
  let missing := if ls.SaleDate = "" then missing ++ ["_saleDate"] else missing
  let missing := if ls.DueDate = "" then missing ++ ["_dueDate"] else missing
  let missing := if ls.BillingPeriod = "" then missing ++ ["_billingPeriod"] else missing
  let missing := if ls.Seller = "" then missing ++ ["_seller"] else missing
  let missing := if ls.Buyer = "" then missing ++ ["_buyer"] else missing
  let missing := if ls.Item = "" then missing ++ ["_item"] else missing
  let missing := if ls.Qty = "" then missing ++ ["_qty"] else missing
  let missing := if ls.UnitNet = "" then missing ++ ["_unitNet"] else missing
  let missing := if ls.TotalNet = "" then missing ++ ["_totalNet"] else missing
  let missing := if ls.Tax = "" then missing ++ ["_tax"] else missing
  let missing := if ls.NA = "" then missing ++ ["_na"] else missing
  let missing := if ls.TotalGross = "" then missing ++ ["_totalGross"] else missing
  let missing := if ls.Notes = "" then missing ++ ["_notes"] else missing
  let missing := if ls.Payment = "" then missing ++ ["_payment"] else missing
  let missing := if ls.Bank = "" then missing ++ ["_bank"] else missing
  let missing := if ls.Swift = "" then missing ++ ["_swift"] else missing
  let missing := if ls.AccountNo = "" then missing ++ ["_accountNo"] else missing
  let missing := if ls.TotalNetPrice = "" then missing ++ ["_totalNetPrice"] else missing
  let missing := if ls.Rate = "" then missing ++ ["_rate"] else missing
  let missing := if ls.Amount = "" then missing ++ ["_amount"] else missing
  let missing := if ls.Discount = "" then missing ++ ["_discount"] else missing
  let missing := if ls.TotalGrossPrice = "" then missing ++ ["_totalGrossPrice"] else missing
  let missing := if ls.PaidLabel = "" then missing ++ ["_paid"] else missing
  let missing := if ls.TotalDue = "" then missing ++ ["_totalDue"] else missing
  if missing.length > 0 then
    Except.error ("language file lang/" ++ code ++ ".json is missing required keys: " ++
      Join missing ", ")
  else Except.ok ()

/-! ## Observations on a run -/

/-- The canvas on which `RunE` calls `writeTotals`: after the item rows, the gap and the
notes. -/
def beforeTotals (tw : TextWidth) (ls : LangStrings) (file : Invoice) (pdf : GoPdf) : GoPdf :=
  let pdf := (itemsLoop tw ls file pdf).1.Br itemsToNotesGap
  if file.Note ≠ "" ∨ file.PaymentMethod ≠ "" ∨ file.Bank ≠ "" ∨ file.Swift ≠ "" ∨
      file.AccountNo ≠ "" then
    writeNotes tw ls pdf file.Note file.PaymentMethod file.Bank file.Swift file.AccountNo
  else pdf

/-- What a writer put on the page: the drawings of `after` that `before` did not have. -/
def drawnSince (before after : GoPdf) : List Draw :=
  after.out.drop before.out.length

/-- The strings of the text drawings, in drawing order. -/
def texts : List Draw → List String
  | [] => []
  | Draw.text _ _ _ _ _ s :: ds => s :: texts ds
  | Draw.line _ _ _ _ _ :: ds => texts ds

/-- The totals block of a run of `RunE`: what its call of `writeTotals` drew. -/
def totalsBlock (tw : TextWidth) (ls : LangStrings) (file : Invoice) (pdf : GoPdf) : List Draw :=
  drawnSince (beforeTotals tw ls file pdf) (generateCmd.RunE tw ls file pdf)

/-- The `startY` that `RunE` passes to `writeTotals`: the cursor after the item rows
and the gap. -/
def sectionY (tw : TextWidth) (ls : LangStrings) (file : Invoice) (pdf : GoPdf) : ℚ :=
  ((itemsLoop tw ls file pdf).1.Br itemsToNotesGap).GetY

/-- The subtotal that `RunE` passes to `writeTotals`. -/
def subtotalOf (tw : TextWidth) (ls : LangStrings) (file : Invoice) (pdf : GoPdf) : ℚ :=
  (itemsLoop tw ls file pdf).2

/-- The quantity the loop of `RunE` uses for item `i`: `Quantities[i]` when that index
exists, and 1 otherwise. -/
def quantityOf (file : Invoice) (i : Nat) : Int := file.Quantities.getD i 1

/-- The rate the loop of `RunE` uses for item `i`: `Rates[i]` when that index exists,
and 0 otherwise. -/
def rateOf (file : Invoice) (i : Nat) : ℚ := file.Rates.getD i 0

/-- The indexes of the items that are not skipped, in item order. -/
def shownItems (file : Invoice) : List Nat :=
  (List.range file.Items.length).filter fun i => quantityOf file i ≠ 0

/-! ## The shape of a totals block and of an item row -/

/-- The two cells of one line of the totals block: the label at the label column and
the value at the gross column, both in `font`. -/
def totalLine (y : ℚ) (font : String) (label value : String) : List Draw :=
  [Draw.text (amountColumnOffset + 18) y font bodyFontSize (75, 75, 75) label,
   Draw.text grossColumnOffset y font bodyFontSize (0, 0, 0) value]

/-- The value cell of a totals line: the amount to two decimals, a space, the code. -/
def withCode (file : Invoice) (total : ℚ) : String :=
  FormatFloat total ++ " " ++ file.Currency

/-- The label of the tax-rate line and of the tax-amount line start with the custom tax
name when there is one, and with the pack's tax label otherwise. -/
def baseTaxLabel (ls : LangStrings) (file : Invoice) : String :=
  if file.TaxName ≠ "" then file.TaxName else ls.Tax

/-- The value of the tax-rate line. -/
def taxRateValue (ls : LangStrings) (file : Invoice) : String :=
  if file.Tax ≠ 0 then FormatFloat (file.Tax * 100) ++ "%" else ls.NA

/-- The three lines every totals block starts with. -/
def totalsHead (ls : LangStrings) (file : Invoice) (startY subtotal tax : ℚ) : List Draw :=
  totalLine startY "Inter" ls.TotalNetPrice (withCode file subtotal) ++
  totalLine (startY + 20) "Inter" (baseTaxLabel ls file ++ " " ++ ls.Rate) (taxRateValue ls file) ++
  totalLine (startY + 40) "Inter" (baseTaxLabel ls file ++ " " ++ ls.Amount) (withCode file tax)

/-- Where the total-gross-price line is drawn: below the three head lines, and below
the discount line when there is one. -/
def grossY (startY discount : ℚ) : ℚ :=
  if discount > 0 then startY + 80 else startY + 60

/-- Where the narrow divider is drawn: below the gross line, and below the paid line
when there is one. -/
def dividerY (file : Invoice) (startY discount : ℚ) : ℚ :=
  if file.Paid ≠ 0 then grossY startY discount + 40 else grossY startY discount + 20

/-- The lines of the totals block from the total-gross-price line on: gross, paid when
it is not zero, the narrow divider, total due in bold. -/
def totalsTail (ls : LangStrings) (file : Invoice) (startY subtotal tax discount : ℚ) :
    List Draw :=
  totalLine (grossY startY discount) "Inter" ls.TotalGrossPrice
    (withCode file (subtotal + tax - discount)) ++
  (if file.Paid ≠ 0 then
    totalLine (grossY startY discount + 20) "Inter" ls.PaidLabel (withCode file file.Paid)
    else []) ++
  [Draw.line amountColumnOffset (dividerY file startY discount) (pageWidth - 40)
    (dividerY file startY discount) (225, 225, 225)] ++
  totalLine (dividerY file startY discount + 10) "Inter-Bold" ls.TotalDue
    (withCode file (subtotal + tax - discount - file.Paid))

/-- The text of the item cell of a row: the first wrapped line, and the item text
itself when the wrap gives no line. -/
def firstLine (tw : TextWidth) (pdf : GoPdf) (item : String) : String :=
  let lines := wrapLines (tw "Inter" bodyFontSize) (quantityColumnOffset - 10 - pdf.marginLeft)
    item
  if lines.length > 0 then lines.headD "" else item

/-- The six cells of the first line of a row, in drawing order: item, quantity, unit
rate, net amount, tax rate, gross amount. -/
def rowCells (tw : TextWidth) (ls : LangStrings) (file : Invoice) (pdf : GoPdf)
    (item : String) (quantity : Int) (rate : ℚ) : List Draw :=
  [Draw.text pdf.marginLeft pdf.y "Inter" bodyFontSize (0, 0, 0) (firstLine tw pdf item),
   Draw.text quantityColumnOffset pdf.y "Inter" bodyFontSize (0, 0, 0) (toString quantity),
   Draw.text rateColumnOffset pdf.y "Inter" bodyFontSize (0, 0, 0)
     (currencySymbol file.Currency ++ FormatFloat rate),
   Draw.text amountColumnOffset pdf.y "Inter" bodyFontSize (0, 0, 0)
     (currencySymbol file.Currency ++ FormatFloat ((quantity : ℚ) * rate)),
   Draw.text taxColumnOffset pdf.y "Inter" bodyFontSize (0, 0, 0) (taxRateValue ls file),
   Draw.text grossColumnOffset pdf.y "Inter" bodyFontSize (0, 0, 0)
     (currencySymbol file.Currency ++
       FormatFloat ((quantity : ℚ) * rate + (quantity : ℚ) * rate * file.Tax))]

/-- Whether a drawing is a text in the bold font. -/
def isBold : Draw → Bool
  | Draw.text _ _ font _ _ _ => font == "Inter-Bold"
  | Draw.line _ _ _ _ _ => false

/-! ## Observations on the party columns -/

/-- The `leftBottom` of `writeSellerBuyerColumns`: the cursor Y at the end of the seller
column. -/
def leftBottom (tw : TextWidth) (ls : LangStrings) (pdf : GoPdf) (from_ : String) : ℚ :=
  (sellerColumn tw ls pdf 40 from_).GetY

/-- The `rightBottom` of `writeSellerBuyerColumns`: the cursor Y at the end of the buyer
column. -/
def rightBottom (tw : TextWidth) (ls : LangStrings) (pdf : GoPdf) (from_ to_ : String) : ℚ :=
  (buyerColumn tw ls (sellerColumn tw ls pdf 40 from_) sellerBuyerColSplit pdf.GetY to_).GetY

/-- The scan of a split on the escaped-newline marker alone (a backslash followed by
`n`): `cur` is the piece being read. A line feed in the text does not end a piece. -/
def splitOnMarkerGo (cur : List Char) : List Char → List (List Char)
  | '\\' :: 'n' :: cs => cur :: splitOnMarkerGo [] cs
  | c :: cs => splitOnMarkerGo (cur ++ [c]) cs
  | [] => [cur]

/-- The pieces of a text between escaped-newline markers: `strings.Split(s, "\\n")`. -/
def splitOnMarker (s : String) : List String :=
  (splitOnMarkerGo [] s.data).map String.mk

/-! ## The state of the wrap loop -/

/-- The lines of a state of the wrap loop once the line being filled is committed, as
after the loop (`if current != ""`). -/
def committed (st : List String × String) : List String :=
  if st.2 ≠ "" then st.1 ++ [st.2] else st.1

/-- A line break between the consecutive lines `a` and `b` is forced: `a` extended by
a space and any first word of `b` measures more than the maximum width. -/
def forcedBreak (measure : String → ℚ) (maxItemWidth : ℚ) (a b : String) : Prop :=
  ∀ w, (Fields b).head? = some w → maxItemWidth < measure (a ++ " " ++ w)

/-! ## The keys of a language pack -/

/-- The fields of `LangStrings` in declaration order, each with the key of its `json`
tag. -/
def jsonFields (ls : LangStrings) : List (String × String) :=
  [("_title", ls.Title), ("_invNo", ls.InvNo), ("_issueDate", ls.IssueDate),
   ("_saleDate", ls.SaleDate), ("_dueDate", ls.DueDate), ("_billingPeriod", ls.BillingPeriod),
   ("_seller", ls.Seller), ("_buyer", ls.Buyer), ("_item", ls.Item), ("_qty", ls.Qty),
   ("_unitNet", ls.UnitNet), ("_totalNet", ls.TotalNet), ("_tax", ls.Tax), ("_na", ls.NA),
   ("_totalGross", ls.TotalGross), ("_notes", ls.Notes), ("_payment", ls.Payment),
   ("_bank", ls.Bank), ("_swift", ls.Swift), ("_accountNo", ls.AccountNo),
   ("_totalNetPrice", ls.TotalNetPrice), ("_rate", ls.Rate), ("_amount", ls.Amount),
   ("_discount", ls.Discount), ("_totalGrossPrice", ls.TotalGrossPrice),
   ("_paid", ls.PaidLabel), ("_totalDue", ls.TotalDue)]

/-- The keys of the fields that are empty, in declaration order. -/
def emptyKeys (ls : LangStrings) : List String :=
  ((jsonFields ls).filter fun kv => kv.2 = "").map Prod.fst

/-- The text of the error of `validateLang` for a list of keys. -/
def missingKeysError (code : String) (keys : List String) : String :=
  "language file lang/" ++ code ++ ".json is missing required keys: " ++ Join keys ", "

/-! ## Sample inputs -/

/-- A text width: one unit a character, whatever the font. -/
def sampleWidth : TextWidth := fun _ _ s => (s.length : ℚ)

/-- A width measure: one unit a character. -/
def charCount : String → ℚ := fun s => (s.length : ℚ)

/-- An English language pack. -/
def samplePack : LangStrings :=
  { Title := "Invoice", InvNo := "Invoice no.", IssueDate := "Issue date",
    SaleDate := "Sale date", DueDate := "Due date", BillingPeriod := "Billing period",
    Seller := "Seller", Buyer := "Buyer", Item := "Item", Qty := "Qty",
    UnitNet := "Unit net", TotalNet := "Total net", Tax := "Tax", NA := "N/A",
    TotalGross := "Total gross", Notes := "Notes", Payment := "Payment", Bank := "Bank",
    Swift := "SWIFT", AccountNo := "Account no.", TotalNetPrice := "Total net price",
    Rate := "rate", Amount := "amount", Discount := "Discount",
    TotalGrossPrice := "Total gross price", PaidLabel := "Paid", TotalDue := "Total due" }

/-- The sample pack without its tax label. -/
def taxlessPack : LangStrings :=
  { samplePack with Tax := "" }

/-- The canvas of a fresh A4 page with 40pt margins. -/
def samplePage : GoPdf :=
  { x := 40, y := 40, marginLeft := 40, font := "Inter", fontSize := 9,
    textColor := (0, 0, 0), strokeColor := (225, 225, 225), out := [] }

/-- The invoice of the second scenario of the specification: one item, quantity 2,
rate 25, tax 0.2, discount 5, paid 10. -/
def sampleInvoice : Invoice :=
  { Id := "20240101", Title := "", Logo := "", LogoScale := 100,
    From := "Project Folded, Inc.", To := "Untitled Corporation, Inc.",
    Date := "2024-01-01", SaleDate := "2024-01-01", Due := "2024-01-08", BillingPeriod := "",
    Items := ["Paper Cranes"], Quantities := [2], Rates := [25],
    Tax := 1 / 5, TaxName := "", Discount := 5, Paid := 10, Currency := "USD", Lang := "en",
    PaymentMethod := "", Bank := "", Swift := "", AccountNo := "", Note := "" }

/-- The sample invoice with its only item at quantity 0: the item is skipped and the
subtotal is 0, while the discount of the invoice is still 5. -/
def skippedInvoice : Invoice :=
  { sampleInvoice with Quantities := [0] }

/-- An invoice that differs from the sample one only beyond its single item. -/
def paddedInvoice : Invoice :=
  { sampleInvoice with Quantities := [2, 7], Rates := [25, 1000] }

/-- The invoice of the first scenario of the specification: one item, quantity 2, rate
25, no tax, no discount, nothing paid. -/
def plainInvoice : Invoice :=
  { sampleInvoice with Tax := 0, Discount := 0, Paid := 0 }

/-! # Theorems -/

/-! ## What the totals writers draw -/

theorem writeTotalWithCode_out (tw : TextWidth) (file : Invoice) (pdf : GoPdf)
    (label : String) (total : ℚ) (bold : Bool) :
    (writeTotalWithCode tw file pdf label total bold).out =
      pdf.out ++ totalLine pdf.y (if bold then "Inter-Bold" else "Inter") label
        (withCode file total) := by
  cases bold <;>
    simp [writeTotalWithCode, totalLine, withCode, GoPdf.SetFont, GoPdf.SetTextColor,
      GoPdf.SetX, GoPdf.Cell, GoPdf.Br]

theorem writeTotalWithCode_y (tw : TextWidth) (file : Invoice) (pdf : GoPdf)
    (label : String) (total : ℚ) (bold : Bool) :
    (writeTotalWithCode tw file pdf label total bold).y = pdf.y + 20 := by
  cases bold <;>
    simp [writeTotalWithCode, GoPdf.SetFont, GoPdf.SetTextColor,
      GoPdf.SetX, GoPdf.Cell, GoPdf.Br]

theorem writeTotalRaw_out (tw : TextWidth) (pdf : GoPdf) (label value : String) :
    (writeTotalRaw tw pdf label value).out = pdf.out ++ totalLine pdf.y "Inter" label value := by
  simp [writeTotalRaw, totalLine, GoPdf.SetFont, GoPdf.SetTextColor,
    GoPdf.SetX, GoPdf.Cell, GoPdf.Br]

theorem writeTotalRaw_y (tw : TextWidth) (pdf : GoPdf) (label value : String) :
    (writeTotalRaw tw pdf label value).y = pdf.y + 20 := by
  simp [writeTotalRaw, GoPdf.SetFont, GoPdf.SetTextColor,
    GoPdf.SetX, GoPdf.Cell, GoPdf.Br]

theorem writeNarrowDivider_out (pdf : GoPdf) :
    (writeNarrowDivider pdf).out =
      pdf.out ++ [Draw.line amountColumnOffset pdf.y (pageWidth - 40) pdf.y (225, 225, 225)] := by
  simp [writeNarrowDivider, GoPdf.SetStrokeColor, GoPdf.GetY, GoPdf.Line, GoPdf.Br]

theorem writeNarrowDivider_y (pdf : GoPdf) : (writeNarrowDivider pdf).y = pdf.y + 10 := by
  simp [writeNarrowDivider, GoPdf.SetStrokeColor, GoPdf.GetY, GoPdf.Line, GoPdf.Br]

/-- Everything `writeTotals` draws, in drawing order. -/
theorem writeTotals_out (tw : TextWidth) (ls : LangStrings) (file : Invoice) (pdf : GoPdf)
    (startY subtotal tax discount : ℚ) :
    (writeTotals tw ls file pdf startY subtotal tax discount).out =
      pdf.out ++ (totalsHead ls file startY subtotal tax ++
        (if discount > 0 then
          totalLine (startY + 60) "Inter" ls.Discount (withCode file discount) else []) ++
        totalLine (grossY startY discount) "Inter" ls.TotalGrossPrice
          (withCode file (subtotal + tax - discount)) ++
        (if file.Paid ≠ 0 then
          totalLine (grossY startY discount + 20) "Inter" ls.PaidLabel (withCode file file.Paid)
          else []) ++
        [Draw.line amountColumnOffset (dividerY file startY discount) (pageWidth - 40)
          (dividerY file startY discount) (225, 225, 225)] ++
        totalLine (dividerY file startY discount + 10) "Inter-Bold" ls.TotalDue
          (withCode file (subtotal + tax - discount - file.Paid))) := by
  unfold writeTotals
  by_cases hd : discount > 0 <;> by_cases hp : file.Paid = 0 <;>
    simp [hd, hp, writeTotalWithCode_out, writeTotalWithCode_y,
      writeTotalRaw_out, writeTotalRaw_y, writeNarrowDivider_out, writeNarrowDivider_y,
      GoPdf.SetY, totalsHead, grossY, dividerY, baseTaxLabel, taxRateValue] <;>
    norm_num [add_assoc]

/-! ## The item loop -/

theorem itemsLoopBody_eq (tw : TextWidth) (ls : LangStrings) (file : Invoice)
    (st : GoPdf × ℚ) (i : Nat) :
    itemsLoopBody tw ls file st i =
      if quantityOf file i = 0 then st
      else (writeRow tw ls file st.1 (file.Items.getD i "") (quantityOf file i) (rateOf file i),
        st.2 + (quantityOf file i : ℚ) * rateOf file i) := by
  have hq : (if file.Quantities.length > i then file.Quantities.getD i 0 else 1)
      = quantityOf file i := by
    unfold quantityOf
    split
    · next h => simp [List.getD_eq_getElem?_getD, List.getElem?_eq_getElem h]
    · next h => simp [List.getD_eq_getElem?_getD, List.getElem?_eq_none (not_lt.mp h)]
  have hr : (if file.Rates.length > i then file.Rates.getD i 0 else 0) = rateOf file i := by
    unfold rateOf
    split
    · rfl
    · next h => simp [List.getD_eq_getElem?_getD, List.getElem?_eq_none (not_lt.mp h)]
  simp only [itemsLoopBody, hq, hr]

theorem itemsLoop_foldl (tw : TextWidth) (ls : LangStrings) (file : Invoice)
    (idx : List Nat) (st : GoPdf × ℚ) :
    idx.foldl (itemsLoopBody tw ls file) st =
      ((idx.filter fun i => quantityOf file i ≠ 0).foldl
          (fun p i => writeRow tw ls file p (file.Items.getD i "") (quantityOf file i)
            (rateOf file i)) st.1,
        st.2 + ((idx.filter fun i => quantityOf file i ≠ 0).map
          fun i => (quantityOf file i : ℚ) * rateOf file i).sum) := by
  induction idx generalizing st with
  | nil => simp
  | cons i rest ih =>
    rw [List.foldl_cons, ih, itemsLoopBody_eq]
    by_cases h : quantityOf file i = 0
    · simp [h]
    · simp [h, add_assoc]

/-- The subtotal `RunE` passes to `writeTotals`. -/
theorem itemsLoop_subtotal (tw : TextWidth) (ls : LangStrings) (file : Invoice) (pdf : GoPdf) :
    (itemsLoop tw ls file pdf).2 =
      ((shownItems file).map fun i => (quantityOf file i : ℚ) * rateOf file i).sum := by
  simp [itemsLoop, itemsLoop_foldl, shownItems]

/-! ## The totals block of a run -/

theorem RunE_eq (tw : TextWidth) (ls : LangStrings) (file : Invoice) (pdf : GoPdf) :
    generateCmd.RunE tw ls file pdf =
      writeTotals tw ls file (beforeTotals tw ls file pdf) (sectionY tw ls file pdf)
        (subtotalOf tw ls file pdf) (subtotalOf tw ls file pdf * file.Tax)
        (subtotalOf tw ls file pdf * file.Discount) := rfl

theorem drawnSince_writeTotals (tw : TextWidth) (ls : LangStrings) (file : Invoice)
    (pdf : GoPdf) (startY subtotal tax discount : ℚ) :
    drawnSince pdf (writeTotals tw ls file pdf startY subtotal tax discount) =
      totalsHead ls file startY subtotal tax ++
      (if discount > 0 then
        totalLine (startY + 60) "Inter" ls.Discount (withCode file discount) else []) ++
      totalsTail ls file startY subtotal tax discount := by
  simp [drawnSince, writeTotals_out, totalsTail]

theorem totalsBlock_eq (tw : TextWidth) (ls : LangStrings) (file : Invoice) (pdf : GoPdf) :
    totalsBlock tw ls file pdf =
      totalsHead ls file (sectionY tw ls file pdf) (subtotalOf tw ls file pdf)
        (subtotalOf tw ls file pdf * file.Tax) ++
      (if subtotalOf tw ls file pdf * file.Discount > 0 then
        totalLine (sectionY tw ls file pdf + 60) "Inter" ls.Discount
          (withCode file (subtotalOf tw ls file pdf * file.Discount)) else []) ++
      totalsTail ls file (sectionY tw ls file pdf) (subtotalOf tw ls file pdf)
        (subtotalOf tw ls file pdf * file.Tax) (subtotalOf tw ls file pdf * file.Discount) := by
  rw [totalsBlock, RunE_eq, drawnSince_writeTotals]

theorem texts_append (a b : List Draw) : texts (a ++ b) = texts a ++ texts b := by
  induction a with
  | nil => rfl
  | cons d ds ih => cases d <;> simp [texts, ih]

theorem texts_totalLine (y : ℚ) (font label value : String) :
    texts (totalLine y font label value) = [label, value] := rfl

/-- The strings of the totals block of a run, in drawing order. -/
theorem texts_totalsBlock (tw : TextWidth) (ls : LangStrings) (file : Invoice) (pdf : GoPdf) :
    texts (totalsBlock tw ls file pdf) =
      [ls.TotalNetPrice, withCode file (subtotalOf tw ls file pdf),
        baseTaxLabel ls file ++ " " ++ ls.Rate, taxRateValue ls file,
        baseTaxLabel ls file ++ " " ++ ls.Amount,
        withCode file (subtotalOf tw ls file pdf * file.Tax)] ++
      (if subtotalOf tw ls file pdf * file.Discount > 0 then
        [ls.Discount, withCode file (subtotalOf tw ls file pdf * file.Discount)] else []) ++
      [ls.TotalGrossPrice,
        withCode file (subtotalOf tw ls file pdf + subtotalOf tw ls file pdf * file.Tax -
          subtotalOf tw ls file pdf * file.Discount)] ++
      (if file.Paid ≠ 0 then [ls.PaidLabel, withCode file file.Paid] else []) ++
      [ls.TotalDue,
        withCode file (subtotalOf tw ls file pdf + subtotalOf tw ls file pdf * file.Tax -
          subtotalOf tw ls file pdf * file.Discount - file.Paid)] := by
  rw [totalsBlock_eq]
  by_cases hd : subtotalOf tw ls file pdf * file.Discount > 0 <;>
    by_cases hp : file.Paid = 0 <;>
    simp [hd, hp, totalsHead, totalsTail, texts_append, texts_totalLine, texts]

/-! ## The sample runs -/

theorem sampleInvoice_subtotal :
    subtotalOf sampleWidth samplePack sampleInvoice samplePage = 50 := by
  rw [subtotalOf, itemsLoop_subtotal]
  norm_num [shownItems, quantityOf, rateOf, sampleInvoice, List.range, List.range.loop]

theorem sampleInvoice_texts :
    texts (totalsBlock sampleWidth samplePack sampleInvoice samplePage) =
      ["Total net price", "50.00 USD", "Tax rate", "20.00%", "Tax amount", "10.00 USD",
        "Discount", "250.00 USD", "Total gross price", "-190.00 USD", "Paid", "10.00 USD",
        "Total due", "-200.00 USD"] := by
  rw [texts_totalsBlock, sampleInvoice_subtotal]
  have h1 : FormatFloat 50 = "50.00" := by decide
  have h2 : FormatFloat 20 = "20.00" := by decide
  have h3 : FormatFloat 10 = "10.00" := by decide
  have h4 : FormatFloat 250 = "250.00" := by decide
  have h5 : FormatFloat (-190) = "-190.00" := by decide
  have h6 : FormatFloat (-200) = "-200.00" := by decide
  norm_num [sampleInvoice, samplePack, withCode, baseTaxLabel, taxRateValue, h1, h2, h3, h4,
    h5, h6]
  decide

theorem skippedInvoice_subtotal :
    subtotalOf sampleWidth samplePack skippedInvoice samplePage = 0 := by
  rw [subtotalOf, itemsLoop_subtotal]
  norm_num [shownItems, quantityOf, rateOf, skippedInvoice, sampleInvoice, List.range,
    List.range.loop]

theorem skippedInvoice_texts :
    texts (totalsBlock sampleWidth samplePack skippedInvoice samplePage) =
      ["Total net price", "0.00 USD", "Tax rate", "20.00%", "Tax amount", "0.00 USD",
        "Total gross price", "0.00 USD", "Paid", "10.00 USD", "Total due", "-10.00 USD"] := by
  rw [texts_totalsBlock, skippedInvoice_subtotal]
  have h1 : FormatFloat 0 = "0.00" := by decide
  have h2 : FormatFloat 20 = "20.00" := by decide
  have h3 : FormatFloat 10 = "10.00" := by decide
  have h4 : FormatFloat (-10) = "-10.00" := by decide
  norm_num [skippedInvoice, sampleInvoice, samplePack, withCode, baseTaxLabel, taxRateValue,
    h1, h2, h3, h4]
  decide

/-! ## Claims on the totals arithmetic -/

/-- C1, as the code has it: in every run of the generate pipeline the total-gross-price
line of the totals block (its fourth line, the fifth when a discount line is drawn)
carries the value subtotal + subtotal×Tax − subtotal×Discount: the `Discount` of the
invoice is applied as a fraction of the subtotal. -/
theorem total_gross_written (tw : TextWidth) (ls : LangStrings) (file : Invoice) (pdf : GoPdf) :
    ((totalsBlock tw ls file pdf).drop
        (if subtotalOf tw ls file pdf * file.Discount > 0 then 8 else 6)).take 2 =
      totalLine (grossY (sectionY tw ls file pdf) (subtotalOf tw ls file pdf * file.Discount))
        "Inter" ls.TotalGrossPrice
        (FormatFloat (subtotalOf tw ls file pdf + subtotalOf tw ls file pdf * file.Tax -
          subtotalOf tw ls file pdf * file.Discount) ++ " " ++ file.Currency) := by
  rw [totalsBlock_eq]
  by_cases hd : subtotalOf tw ls file pdf * file.Discount > 0 <;>
    simp [hd, totalsHead, totalsTail, totalLine, withCode]

/-- C1 fails as stated: for one item of quantity 2 and rate 25, tax 0.2 and discount 5
the subtotal is 50 and the total-gross-price line reads "-190.00 USD", not the
"55.00 USD" of 50 + 50×0.2 − 5. -/
theorem total_gross_written_counterexample :
    subtotalOf sampleWidth samplePack sampleInvoice samplePage = 50 ∧
    (texts (totalsBlock sampleWidth samplePack sampleInvoice samplePage))[8]? =
      some "Total gross price" ∧
    (texts (totalsBlock sampleWidth samplePack sampleInvoice samplePage))[9]? =
      some "-190.00 USD" ∧
    FormatFloat (50 + 50 * sampleInvoice.Tax - sampleInvoice.Discount) ++ " " ++
      sampleInvoice.Currency = "55.00 USD" ∧
    (texts (totalsBlock sampleWidth samplePack sampleInvoice samplePage))[9]? ≠
      some (FormatFloat (50 + 50 * sampleInvoice.Tax - sampleInvoice.Discount) ++ " " ++
        sampleInvoice.Currency) := by
  have h : FormatFloat (50 + 50 * sampleInvoice.Tax - sampleInvoice.Discount) ++ " " ++
      sampleInvoice.Currency = "55.00 USD" := by
    have e : (50 + 50 * sampleInvoice.Tax - sampleInvoice.Discount : ℚ) = 55 := by
      norm_num [sampleInvoice]
    rw [e]
    decide
  rw [h, sampleInvoice_texts]
  exact ⟨sampleInvoice_subtotal, by decide, by decide, rfl, by decide⟩

/-- C2, as the code has it: in every run of the generate pipeline the totals block is
its three head lines, then a discount line exactly when subtotal×Discount > 0, whose
value is subtotal×Discount, then the lines from total-gross-price on. -/
theorem discount_line_written (tw : TextWidth) (ls : LangStrings) (file : Invoice)
    (pdf : GoPdf) :
    totalsBlock tw ls file pdf =
      totalsHead ls file (sectionY tw ls file pdf) (subtotalOf tw ls file pdf)
        (subtotalOf tw ls file pdf * file.Tax) ++
      (if subtotalOf tw ls file pdf * file.Discount > 0 then
        totalLine (sectionY tw ls file pdf + 60) "Inter" ls.Discount
          (FormatFloat (subtotalOf tw ls file pdf * file.Discount) ++ " " ++ file.Currency)
        else []) ++
      totalsTail ls file (sectionY tw ls file pdf) (subtotalOf tw ls file pdf)
        (subtotalOf tw ls file pdf * file.Tax) (subtotalOf tw ls file pdf * file.Discount) :=
  totalsBlock_eq tw ls file pdf

/-- C2 fails as stated, in both halves. With quantity 2, rate 25 and discount 5 the
discount line reads "250.00 USD", not the "5.00 USD" of the discount itself; and with
the item at quantity 0 the discount is still 5 > 0 and no discount line is written. -/
theorem discount_line_written_counterexample :
    ((texts (totalsBlock sampleWidth samplePack sampleInvoice samplePage))[6]? =
        some samplePack.Discount ∧
      (texts (totalsBlock sampleWidth samplePack sampleInvoice samplePage))[7]? =
        some "250.00 USD" ∧
      (texts (totalsBlock sampleWidth samplePack sampleInvoice samplePage))[7]? ≠
        some (FormatFloat sampleInvoice.Discount ++ " " ++ sampleInvoice.Currency)) ∧
    (skippedInvoice.Discount > 0 ∧
      samplePack.Discount ∉ texts (totalsBlock sampleWidth samplePack skippedInvoice samplePage) ∧
      (texts (totalsBlock sampleWidth samplePack skippedInvoice samplePage)).length = 12) := by
  have h : FormatFloat sampleInvoice.Discount ++ " " ++ sampleInvoice.Currency = "5.00 USD" := by
    have e : sampleInvoice.Discount = 5 := rfl
    rw [e]
    decide
  rw [h, sampleInvoice_texts, skippedInvoice_texts]
  refine ⟨⟨by decide, by decide, by decide⟩, ?_, by decide, by decide⟩
  norm_num [skippedInvoice, sampleInvoice]

/-! ## Claims on the item loop -/

/-- C3: a pass of the item loop for an item whose effective quantity is 0 changes
neither the canvas (no `writeRow`) nor the subtotal, and the canvas after the loop is
the one obtained by calling `writeRow` on exactly the items of non-zero effective
quantity, in item order, each with its name, its quantity and its rate. -/
theorem zero_quantity_skipped (tw : TextWidth) (ls : LangStrings) (file : Invoice)
    (pdf : GoPdf) :
    (∀ (st : GoPdf × ℚ) (i : Nat), file.Quantities.getD i 1 = 0 →
      itemsLoopBody tw ls file st i = st) ∧
    (itemsLoop tw ls file pdf).1 =
      ((List.range file.Items.length).filter fun i => file.Quantities.getD i 1 ≠ 0).foldl
        (fun p i => writeRow tw ls file p (file.Items.getD i "") (file.Quantities.getD i 1)
          (file.Rates.getD i 0)) pdf := by
  constructor
  · intro st i h
    have hq : quantityOf file i = 0 := h
    rw [itemsLoopBody_eq, if_pos hq]
  · simp only [itemsLoop, itemsLoop_foldl]
    rfl

/-- C3 at a concrete input: the pass for the only item of `skippedInvoice`, whose
quantity is 0, leaves the fresh page and the subtotal 0 as they are. -/
theorem zero_quantity_skipped_witness :
    skippedInvoice.Quantities.getD 0 1 = 0 ∧
    itemsLoopBody sampleWidth samplePack skippedInvoice (samplePage, 0) 0 = (samplePage, 0) :=
  ⟨rfl, (zero_quantity_skipped sampleWidth samplePack skippedInvoice samplePage).1
    (samplePage, 0) 0 rfl⟩

/-- C4: the subtotal passed to the totals block is the sum of quantity×rate over the
items of non-zero effective quantity, the quantity defaulting to 1 and the rate to 0
where the list has no such index; two invoices with as many items whose quantities
and rates agree at every index below the number of items have the same subtotal,
whatever the lists hold from that index on. -/
theorem subtotal_is_sum (tw : TextWidth) (ls : LangStrings) (file : Invoice) (pdf : GoPdf) :
    (itemsLoop tw ls file pdf).2 =
      (((List.range file.Items.length).filter fun i => file.Quantities.getD i 1 ≠ 0).map
        fun i => (file.Quantities.getD i 1 : ℚ) * file.Rates.getD i 0).sum ∧
    ∀ (other : Invoice) (page : GoPdf),
      other.Items.length = file.Items.length →
      (∀ i, i < file.Items.length → other.Quantities[i]? = file.Quantities[i]?) →
      (∀ i, i < file.Items.length → other.Rates[i]? = file.Rates[i]?) →
      (itemsLoop tw ls other page).2 = (itemsLoop tw ls file pdf).2 := by
  refine ⟨itemsLoop_subtotal tw ls file pdf, ?_⟩
  intro other page hlen hq hr
  rw [itemsLoop_subtotal, itemsLoop_subtotal, shownItems, shownItems, hlen]
  have hq2 : ∀ i ∈ List.range file.Items.length, quantityOf other i = quantityOf file i := by
    intro i hi
    simp only [quantityOf, List.getD_eq_getElem?_getD, hq i (List.mem_range.mp hi)]
  have hr2 : ∀ i ∈ List.range file.Items.length, rateOf other i = rateOf file i := by
    intro i hi
    simp only [rateOf, List.getD_eq_getElem?_getD, hr i (List.mem_range.mp hi)]
  have hf : (List.range file.Items.length).filter (fun i => quantityOf other i ≠ 0) =
      (List.range file.Items.length).filter (fun i => quantityOf file i ≠ 0) := by
    apply List.filter_congr
    intro i hi
    rw [hq2 i hi]
  rw [hf]
  congr 1
  apply List.map_congr_left
  intro i hi
  have hi2 := (List.mem_filter.mp hi).1
  rw [hq2 i hi2, hr2 i hi2]

/-- C4 at a concrete input: the entries at index 1 of `paddedInvoice` do not change the
subtotal of the one-item sample invoice. -/
theorem subtotal_is_sum_witness :
    (itemsLoop sampleWidth samplePack paddedInvoice samplePage).2 =
      (itemsLoop sampleWidth samplePack sampleInvoice samplePage).2 :=
  (subtotal_is_sum sampleWidth samplePack sampleInvoice samplePage).2 paddedInvoice samplePage
    rfl
    (fun i hi => by
      have h0 : i = 0 := by
        simpa [sampleInvoice] using hi
      subst h0
      rfl)
    (fun i hi => by
      have h0 : i = 0 := by
        simpa [sampleInvoice] using hi
      subst h0
      rfl)

/-! ## Word wrap -/

theorem Join_cons_of_ne_nil (a : String) (l : List String) (sep : String) (h : l ≠ []) :
    Join (a :: l) sep = a ++ sep ++ Join l sep := by
  cases l with
  | nil => exact absurd rfl h
  | cons b rest => rfl

/-- Joining with a line `c ++ " " ++ w` gives the same text as joining with the two
lines `c` and `w`. -/
theorem Join_glue (pre post : List String) (c w : String) :
    Join (pre ++ (c ++ " " ++ w) :: post) " " = Join (pre ++ c :: w :: post) " " := by
  induction pre with
  | nil =>
    cases post with
    | nil => simp [Join]
    | cons r rest => simp [Join, String.append_assoc]
  | cons a pre ih =>
    rw [List.cons_append, List.cons_append, Join_cons_of_ne_nil _ _ _ (by simp),
      Join_cons_of_ne_nil _ _ _ (by simp), ih]

theorem committed_wrapStep (measure : String → ℚ) (maxItemWidth : ℚ)
    (st : List String × String) (w : String) (hw : w ≠ "") (rest : List String) :
    Join (committed (wrapStep measure maxItemWidth st w) ++ rest) " " =
      Join (committed st ++ w :: rest) " " := by
  obtain ⟨lines, current⟩ := st
  by_cases hc : current = ""
  · simp [wrapStep, committed, hc, hw]
  · by_cases hfit : measure (current ++ " " ++ w) ≤ maxItemWidth
    · have hne : current ++ " " ++ w ≠ "" := by
        intro h
        have := congrArg String.data h
        simp at this
      simp only [wrapStep, committed, hc, hfit, hne, ne_eq, not_false_eq_true, if_true,
        true_or, or_false, List.append_assoc, List.singleton_append]
      exact Join_glue lines rest current w
    · simp [wrapStep, committed, hc, hfit, hw]

theorem committed_foldl (measure : String → ℚ) (maxItemWidth : ℚ) (words : List String)
    (hw : ∀ w ∈ words, w ≠ "") (st : List String × String) :
    Join (committed (words.foldl (wrapStep measure maxItemWidth) st)) " " =
      Join (committed st ++ words) " " := by
  induction words generalizing st with
  | nil => simp
  | cons w rest ih =>
    rw [List.foldl_cons, ih (fun x hx => hw x (List.mem_cons_of_mem _ hx)),
      committed_wrapStep measure maxItemWidth st w (hw w (List.mem_cons_self _ _)) rest]

theorem fieldsGo_ne_nil (cs cur : List Char) : ∀ l ∈ fieldsGo cur cs, l ≠ [] := by
  induction cs generalizing cur with
  | nil =>
    intro l hl
    by_cases hc : cur = []
    · simp [fieldsGo, hc] at hl
    · simp [fieldsGo, hc] at hl
      rw [hl]
      exact hc
  | cons c cs ih =>
    intro l hl
    by_cases hs : isSpace c = true
    · by_cases hc : cur = []
      · simp only [fieldsGo, hs, hc, if_true] at hl
        exact ih [] l hl
      · simp only [fieldsGo, hs, hc, if_true, if_false, List.mem_cons] at hl
        rcases hl with hl | hl
        · rw [hl]
          exact hc
        · exact ih [] l hl
    · simp only [fieldsGo, hs, if_false] at hl
      exact ih _ l hl

theorem Fields_ne_empty (s : String) : ∀ w ∈ Fields s, w ≠ "" := by
  intro w hw
  simp only [Fields, List.mem_map] at hw
  obtain ⟨l, hl, rfl⟩ := hw
  intro h
  have := congrArg String.data h
  exact fieldsGo_ne_nil _ _ l hl this

theorem fieldsGo_no_space (cs cur : List Char) (hcur : ∀ c ∈ cur, isSpace c = false) :
    ∀ l ∈ fieldsGo cur cs, ∀ c ∈ l, isSpace c = false := by
  induction cs generalizing cur with
  | nil =>
    intro l hl
    by_cases hc : cur = []
    · simp [fieldsGo, hc] at hl
    · simp [fieldsGo, hc] at hl
      rw [hl]
      exact hcur
  | cons c cs ih =>
    intro l hl
    by_cases hs : isSpace c = true
    · by_cases hc : cur = []
      · simp only [fieldsGo, hs, hc, if_true] at hl
        exact ih [] (by simp) l hl
      · simp only [fieldsGo, hs, hc, if_true, if_false, List.mem_cons] at hl
        rcases hl with hl | hl
        · rw [hl]
          exact hcur
        · exact ih [] (by simp) l hl
    · simp only [fieldsGo, hs, if_false] at hl
      refine ih (cur ++ [c]) ?_ l hl
      intro x hx
      rcases List.mem_append.mp hx with hx | hx
      · exact hcur x hx
      · rw [List.mem_singleton.mp hx]
        simpa using hs

/-- A text without a space is one field, together with what was already read. -/
theorem fieldsGo_word (cs cur : List Char) (hcs : ∀ c ∈ cs, isSpace c = false)
    (hne : cur ++ cs ≠ []) : fieldsGo cur cs = [cur ++ cs] := by
  induction cs generalizing cur with
  | nil =>
    have hc : cur ≠ [] := by simpa using hne
    simp [fieldsGo, hc]
  | cons c cs ih =>
    have hs : isSpace c = false := hcs c (List.mem_cons_self _ _)
    simp only [fieldsGo, hs, Bool.false_eq_true, if_false]
    rw [ih (cur ++ [c]) (fun x hx => hcs x (List.mem_cons_of_mem _ hx)) (by simp)]
    simp

/-- The fields of a text with a space in it: those before the space, then those after. -/
theorem fieldsGo_split (a b cur : List Char) (sp : Char) (hsp : isSpace sp = true) :
    fieldsGo cur (a ++ sp :: b) = fieldsGo cur a ++ fieldsGo [] b := by
  induction a generalizing cur with
  | nil =>
    by_cases hc : cur = []
    · simp [fieldsGo, hsp, hc]
    · simp [fieldsGo, hsp, hc]
  | cons x a ih =>
    by_cases hx : isSpace x = true
    · by_cases hc : cur = []
      · simp [fieldsGo, hx, hc, ih]
      · simp [fieldsGo, hx, hc, ih]
    · simp [fieldsGo, hx, ih]

/-- A word of a text is its own only field. -/
theorem Fields_of_field (s w : String) (hw : w ∈ Fields s) : Fields w = [w] := by
  simp only [Fields, List.mem_map] at hw
  obtain ⟨l, hl, rfl⟩ := hw
  have h1 := fieldsGo_no_space s.data [] (by simp) l hl
  have h2 := fieldsGo_ne_nil s.data [] l hl
  simp [Fields, fieldsGo_word l [] h1 (by simpa using h2)]

theorem Fields_glue (c w : String) : Fields (c ++ " " ++ w) = Fields c ++ Fields w := by
  have h : (c ++ " " ++ w).data = c.data ++ ' ' :: w.data := by
    simp [String.data_append]
  simp only [Fields, h]
  rw [fieldsGo_split c.data w.data [] ' ' (by decide), List.map_append]

/-- The words of the lines of a state of the wrap loop, in order. -/
theorem wordsOf_wrapStep (measure : String → ℚ) (maxItemWidth : ℚ)
    (st : List String × String) (w : String) (hw : w ≠ "") (hf : Fields w = [w]) :
    (committed (wrapStep measure maxItemWidth st w)).flatMap Fields =
      (committed st).flatMap Fields ++ [w] := by
  obtain ⟨lines, current⟩ := st
  by_cases hc : current = ""
  · simp [wrapStep, committed, hc, hw, hf]
  · by_cases hfit : measure (current ++ " " ++ w) ≤ maxItemWidth
    · have hne : current ++ " " ++ w ≠ "" := by
        intro h
        have := congrArg String.data h
        simp at this
      simp [wrapStep, committed, hc, hfit, hne, Fields_glue, hf]
    · simp [wrapStep, committed, hc, hfit, hw, hf]

theorem wordsOf_foldl (measure : String → ℚ) (maxItemWidth : ℚ) (words : List String)
    (hw : ∀ w ∈ words, w ≠ "") (hf : ∀ w ∈ words, Fields w = [w])
    (st : List String × String) :
    (committed (words.foldl (wrapStep measure maxItemWidth) st)).flatMap Fields =
      (committed st).flatMap Fields ++ words := by
  induction words generalizing st with
  | nil => simp
  | cons w rest ih =>
    rw [List.foldl_cons, ih (fun x hx => hw x (List.mem_cons_of_mem _ hx))
      (fun x hx => hf x (List.mem_cons_of_mem _ hx)),
      wordsOf_wrapStep measure maxItemWidth st w (hw w (List.mem_cons_self _ _))
        (hf w (List.mem_cons_self _ _))]
    simp

/-- C5: for every item text, every width measure and every maximum width, the lines of
the word-wrap of `writeRow` joined by single spaces are the words of the item joined by
single spaces; and the words of the lines, line after line, are the words of the item:
none is lost, duplicated, split or moved. -/
theorem wrap_preserves_words (measure : String → ℚ) (maxItemWidth : ℚ) (item : String) :
    Join (wrapLines measure maxItemWidth item) " " = Join (Fields item) " " ∧
    (wrapLines measure maxItemWidth item).flatMap Fields = Fields item := by
  constructor
  · have h := committed_foldl measure maxItemWidth (Fields item) (Fields_ne_empty item)
      ([], "")
    simpa [wrapLines, committed] using h
  · have h := wordsOf_foldl measure maxItemWidth (Fields item) (Fields_ne_empty item)
      (fun w hw => Fields_of_field item w hw) ([], "")
    simpa [wrapLines, committed] using h

theorem wrapStep_fits (measure : String → ℚ) (maxItemWidth : ℚ) (words : List String)
    (st : List String × String) (w : String) (hw : w ∈ words)
    (h1 : ∀ l ∈ st.1, measure l ≤ maxItemWidth ∨ l ∈ words)
    (h2 : st.2 = "" ∨ measure st.2 ≤ maxItemWidth ∨ st.2 ∈ words) :
    (∀ l ∈ (wrapStep measure maxItemWidth st w).1, measure l ≤ maxItemWidth ∨ l ∈ words) ∧
    ((wrapStep measure maxItemWidth st w).2 = "" ∨
      measure (wrapStep measure maxItemWidth st w).2 ≤ maxItemWidth ∨
      (wrapStep measure maxItemWidth st w).2 ∈ words) := by
  obtain ⟨lines, current⟩ := st
  by_cases hc : current = ""
  · have e : wrapStep measure maxItemWidth (lines, current) w = (lines, w) := by
      simp [wrapStep, hc]
    rw [e]
    exact ⟨h1, Or.inr (Or.inr hw)⟩
  · by_cases hfit : measure (current ++ " " ++ w) ≤ maxItemWidth
    · have e : wrapStep measure maxItemWidth (lines, current) w =
          (lines, current ++ " " ++ w) := by
        simp [wrapStep, hc, hfit]
      rw [e]
      exact ⟨h1, Or.inr (Or.inl hfit)⟩
    · have e : wrapStep measure maxItemWidth (lines, current) w = (lines ++ [current], w) := by
        simp [wrapStep, hc, hfit]
      rw [e]
      refine ⟨?_, Or.inr (Or.inr hw)⟩
      intro l hl
      rcases List.mem_append.mp hl with hl | hl
      · exact h1 l hl
      · rw [List.mem_singleton.mp hl]
        rcases h2 with h2 | h2
        · exact absurd h2 hc
        · exact h2

theorem wrapFoldl_fits (measure : String → ℚ) (maxItemWidth : ℚ) (words ws : List String)
    (hws : ∀ w ∈ ws, w ∈ words) (st : List String × String)
    (h1 : ∀ l ∈ st.1, measure l ≤ maxItemWidth ∨ l ∈ words)
    (h2 : st.2 = "" ∨ measure st.2 ≤ maxItemWidth ∨ st.2 ∈ words) :
    (∀ l ∈ (ws.foldl (wrapStep measure maxItemWidth) st).1,
      measure l ≤ maxItemWidth ∨ l ∈ words) ∧
    ((ws.foldl (wrapStep measure maxItemWidth) st).2 = "" ∨
      measure (ws.foldl (wrapStep measure maxItemWidth) st).2 ≤ maxItemWidth ∨
      (ws.foldl (wrapStep measure maxItemWidth) st).2 ∈ words) := by
  induction ws generalizing st with
  | nil => exact ⟨h1, h2⟩
  | cons w rest ih =>
    rw [List.foldl_cons]
    have hstep := wrapStep_fits measure maxItemWidth words st w
      (hws w (List.mem_cons_self _ _)) h1 h2
    exact ih (fun x hx => hws x (List.mem_cons_of_mem _ hx)) _ hstep.1 hstep.2

theorem wrapLines_fits (measure : String → ℚ) (maxItemWidth : ℚ) (item : String)
    (l : String) (hl : l ∈ wrapLines measure maxItemWidth item) :
    measure l ≤ maxItemWidth ∨ l ∈ Fields item := by
  have h := wrapFoldl_fits measure maxItemWidth (Fields item) (Fields item) (fun _ hw => hw)
    ([], "") (by simp) (Or.inl rfl)
  unfold wrapLines at hl
  by_cases hc : ((Fields item).foldl (wrapStep measure maxItemWidth) ([], "")).2 = ""
  · simp only [hc, ne_eq, not_true_eq_false, if_false] at hl
    exact h.1 l hl
  · simp only [hc, ne_eq, not_false_eq_true, if_true] at hl
    rcases List.mem_append.mp hl with hl | hl
    · exact h.1 l hl
    · rw [List.mem_singleton.mp hl]
      rcases h.2 with h2 | h2
      · exact absurd h2 hc
      · exact h2

/-- C6: for every item text, every width measure and every maximum width, each line of
the word-wrap of `writeRow` measures at most the maximum width or is a single word of
the item (a force-fit word); a line of two or more words measures at most the maximum
width. -/
theorem wrap_lines_fit (measure : String → ℚ) (maxItemWidth : ℚ) (item : String) :
    ∀ l ∈ wrapLines measure maxItemWidth item,
      (measure l ≤ maxItemWidth ∨ (l ∈ Fields item ∧ Fields l = [l])) ∧
      (2 ≤ (Fields l).length → measure l ≤ maxItemWidth) := by
  intro l hl
  rcases wrapLines_fits measure maxItemWidth item l hl with h | h
  · exact ⟨Or.inl h, fun _ => h⟩
  · have hf := Fields_of_field item l h
    refine ⟨Or.inr ⟨h, hf⟩, ?_⟩
    intro h2
    rw [hf] at h2
    simp at h2

/-- C6 at a concrete input: with one unit a character and a maximum width of 5, the
item "aa bb cccccccc" wraps into "aa bb", which fits, and the force-fit word
"cccccccc", which is a single word of the item. -/
theorem wrap_lines_fit_witness :
    wrapLines charCount 5 "aa bb cccccccc" = ["aa bb", "cccccccc"] ∧
    ((charCount "cccccccc" ≤ 5 ∨
        ("cccccccc" ∈ Fields "aa bb cccccccc" ∧ Fields "cccccccc" = ["cccccccc"])) ∧
      (2 ≤ (Fields "cccccccc").length → charCount "cccccccc" ≤ 5)) :=
  ⟨by decide, wrap_lines_fit charCount 5 "aa bb cccccccc" "cccccccc" (by decide)⟩

/-! ## Output file name -/

theorem collapseDashes_mem (cs : List Char) (inRun : Bool) :
    ∀ c ∈ collapseDashes inRun cs, c ∈ cs := by
  induction cs generalizing inRun with
  | nil => simp [collapseDashes]
  | cons x cs ih =>
    intro c hc
    by_cases hx : x = '-'
    · cases inRun
      · simp only [collapseDashes, hx, if_true, Bool.false_eq_true, if_false,
          List.mem_cons] at hc ⊢
        rcases hc with hc | hc
        · exact Or.inl hc
        · exact Or.inr (ih true c hc)
      · simp only [collapseDashes, hx, if_true, List.mem_cons] at hc ⊢
        exact Or.inr (ih true c hc)
    · simp only [collapseDashes, hx, if_false, List.mem_cons] at hc ⊢
      rcases hc with hc | hc
      · exact Or.inl hc
      · exact Or.inr (ih false c hc)

/-- After a hyphen the collapsed text does not start with a hyphen. -/
theorem collapseDashes_head (cs : List Char) :
    ∀ rest, collapseDashes true cs ≠ '-' :: rest := by
  induction cs with
  | nil => simp [collapseDashes]
  | cons x cs ih =>
    intro rest
    by_cases hx : x = '-'
    · simp only [collapseDashes, hx, if_true]
      exact ih rest
    · simp only [collapseDashes, hx, if_false]
      intro h
      exact hx (List.cons.inj h).1

theorem collapseDashes_no_pair (cs : List Char) (inRun : Bool) :
    ¬ (['-', '-'] <:+: collapseDashes inRun cs) := by
  induction cs generalizing inRun with
  | nil => simp [collapseDashes]
  | cons x cs ih =>
    by_cases hx : x = '-'
    · cases inRun
      · simp only [collapseDashes, hx, if_true, Bool.false_eq_true, if_false]
        intro h
        rcases List.infix_cons_iff.mp h with h | h
        · obtain ⟨t, ht⟩ := h
          simp only [List.cons_append, List.nil_append, List.cons.injEq, true_and] at ht
          exact collapseDashes_head cs t ht.symm
        · exact ih true h
      · simp only [collapseDashes, hx, if_true]
        exact ih true
    · simp only [collapseDashes, hx, if_false]
      intro h
      rcases List.infix_cons_iff.mp h with h | h
      · obtain ⟨t, ht⟩ := h
        simp only [List.cons_append, List.nil_append, List.cons.injEq] at ht
        exact hx ht.1.symm
      · exact ih false h

/-- C7: for every identifier, and whatever the case table does outside ASCII, the file
name has only characters of `[a-z0-9._-]`, so no upper-case letter and no space, and
no two hyphens in a row; the empty identifier gives "invoice", and "Invoice #1 2024"
gives "invoice-1-2024". -/
theorem sanitizeFilename_safe (lowerRune : Char → Char) (id : String) :
    (∀ c ∈ (sanitizeFilename lowerRune id).data,
      isSafeChar c = true ∧ ¬ (65 ≤ c.toNat ∧ c.toNat ≤ 90) ∧ c ≠ ' ') ∧
    ¬ (['-', '-'] <:+: (sanitizeFilename lowerRune id).data) ∧
    sanitizeFilename lowerRune "" = "invoice" ∧
    sanitizeFilename lowerRune "Invoice #1 2024" = "invoice-1-2024" := by
  refine ⟨?_, collapseDashes_no_pair _ false, rfl, rfl⟩
  intro c hc
  have hmem := collapseDashes_mem _ false c hc
  have hsafe : isSafeChar c = true := by
    simp only [replaceInvalid, List.mem_map] at hmem
    obtain ⟨x, _, hx⟩ := hmem
    by_cases hs : isSafeChar x = true
    · simp only [hs, if_true] at hx
      rw [← hx]
      exact hs
    · rw [if_neg hs] at hx
      rw [← hx]
      decide
  refine ⟨hsafe, ?_, ?_⟩
  · intro hu
    simp only [isSafeChar, Bool.or_eq_true, Bool.and_eq_true, decide_eq_true_eq,
      beq_iff_eq] at hsafe
    rcases hsafe with (((h | h) | h) | h) | h
    · omega
    · omega
    · rw [h] at hu
      revert hu
      decide
    · rw [h] at hu
      revert hu
      decide
    · rw [h] at hu
      revert hu
      decide
  · intro hsp
    rw [hsp] at hsafe
    revert hsafe
    decide

/-! ## Language pack validation -/

theorem append_if (c : Prop) [Decidable c] (l : List String) (k : String) :
    (if c then l ++ [k] else l) = l ++ (if c then [k] else []) := by
  split <;> simp

theorem emptyKeys_cons (k v : String) (rest : List (String × String)) :
    ((((k, v) :: rest).filter fun kv => kv.2 = "").map Prod.fst) =
      (if v = "" then [k] else []) ++ ((rest.filter fun kv => kv.2 = "").map Prod.fst) := by
  by_cases h : v = "" <;> simp [List.filter_cons, h]

theorem validateLang_eq (ls : LangStrings) (code : String) :
    validateLang ls code =
      if (emptyKeys ls).length > 0 then Except.error (missingKeysError code (emptyKeys ls))
      else Except.ok () := by
  have h : emptyKeys ls =
      (if ls.Title = "" then ["_title"] else []) ++
      ((if ls.InvNo = "" then ["_invNo"] else []) ++
      ((if ls.IssueDate = "" then ["_issueDate"] else []) ++
      ((if ls.SaleDate = "" then ["_saleDate"] else []) ++
      ((if ls.DueDate = "" then ["_dueDate"] else []) ++
      ((if ls.BillingPeriod = "" then ["_billingPeriod"] else []) ++
      ((if ls.Seller = "" then ["_seller"] else []) ++
      ((if ls.Buyer = "" then ["_buyer"] else []) ++
      ((if ls.Item = "" then ["_item"] else []) ++
      ((if ls.Qty = "" then ["_qty"] else []) ++
      ((if ls.UnitNet = "" then ["_unitNet"] else []) ++
      ((if ls.TotalNet = "" then ["_totalNet"] else []) ++
      ((if ls.Tax = "" then ["_tax"] else []) ++
      ((if ls.NA = "" then ["_na"] else []) ++
      ((if ls.TotalGross = "" then ["_totalGross"] else []) ++
      ((if ls.Notes = "" then ["_notes"] else []) ++
      ((if ls.Payment = "" then ["_payment"] else []) ++
      ((if ls.Bank = "" then ["_bank"] else []) ++
      ((if ls.Swift = "" then ["_swift"] else []) ++
      ((if ls.AccountNo = "" then ["_accountNo"] else []) ++
      ((if ls.TotalNetPrice = "" then ["_totalNetPrice"] else []) ++
      ((if ls.Rate = "" then ["_rate"] else []) ++
      ((if ls.Amount = "" then ["_amount"] else []) ++
      ((if ls.Discount = "" then ["_discount"] else []) ++
      ((if ls.TotalGrossPrice = "" then ["_totalGrossPrice"] else []) ++
      ((if ls.PaidLabel = "" then ["_paid"] else []) ++
      (if ls.TotalDue = "" then ["_totalDue"] else [])))))))))))))))))))))))))) := by
    simp only [emptyKeys, jsonFields, emptyKeys_cons, List.filter_nil, List.map_nil,
      List.append_nil]
  unfold validateLang missingKeysError
  simp only [append_if]
  simp only [List.nil_append, List.append_assoc]
  rw [h]

theorem emptyKeys_eq_nil (ls : LangStrings) :
    emptyKeys ls = [] ↔ ∀ kv ∈ jsonFields ls, kv.2 ≠ "" := by
  simp only [emptyKeys, List.map_eq_nil_iff, List.filter_eq_nil_iff, decide_eq_true_eq]

/-- C8: `validateLang` returns no error exactly when every field of the pack is
non-empty; when some field is empty the error is the fixed text followed by the keys
of the empty fields, those and no others, in declaration order and separated by ", ";
so a pack whose only empty field has key `k` fails with the text followed by `k`. -/
theorem validateLang_names_missing (ls : LangStrings) (code : String) :
    (validateLang ls code = Except.ok () ↔ ∀ kv ∈ jsonFields ls, kv.2 ≠ "") ∧
    ((∃ kv ∈ jsonFields ls, kv.2 = "") →
      validateLang ls code =
        Except.error ("language file lang/" ++ code ++ ".json is missing required keys: " ++
          Join (((jsonFields ls).filter fun kv => kv.2 = "").map Prod.fst) ", ")) ∧
    (∀ (pre post : List (String × String)) (k : String),
      jsonFields ls = pre ++ (k, "") :: post → (∀ kv ∈ pre ++ post, kv.2 ≠ "") →
      validateLang ls code =
        Except.error ("language file lang/" ++ code ++ ".json is missing required keys: " ++ k)) := by
  have hne : (∃ kv ∈ jsonFields ls, kv.2 = "") → (emptyKeys ls).length > 0 := by
    intro h
    rcases Nat.eq_zero_or_pos (emptyKeys ls).length with h0 | h0
    · obtain ⟨kv, hkv, he⟩ := h
      exact absurd he ((emptyKeys_eq_nil ls).mp (List.length_eq_zero.mp h0) kv hkv)
    · exact h0
  refine ⟨?_, ?_, ?_⟩
  · rw [validateLang_eq, ← emptyKeys_eq_nil]
    constructor
    · intro h
      by_contra hn
      have hpos : (emptyKeys ls).length > 0 := List.length_pos.mpr hn
      rw [if_pos hpos] at h
      cases h
    · intro h
      simp [h]
  · intro h
    rw [validateLang_eq, if_pos (hne h)]
    rfl
  · intro pre post k hsplit hrest
    have hex : ∃ kv ∈ jsonFields ls, kv.2 = "" :=
      ⟨(k, ""), by rw [hsplit]; simp, rfl⟩
    have hkeys : emptyKeys ls = [k] := by
      have hpre : pre.filter (fun kv => decide (kv.2 = "")) = [] := by
        rw [List.filter_eq_nil_iff]
        intro kv hkv
        simpa using hrest kv (List.mem_append_left _ hkv)
      have hpost : post.filter (fun kv => decide (kv.2 = "")) = [] := by
        rw [List.filter_eq_nil_iff]
        intro kv hkv
        simpa using hrest kv (List.mem_append_right _ hkv)
      simp [emptyKeys, hsplit, List.filter_append, List.filter_cons, hpre, hpost]
    rw [validateLang_eq, if_pos (hne hex), hkeys]
    rfl

/-- C8 at a concrete input: the pack whose only empty field is the tax label fails for
the code "en" with the error that names `_tax` and nothing else. -/
theorem validateLang_names_missing_witness :
    validateLang taxlessPack "en" =
      Except.error "language file lang/en.json is missing required keys: _tax" :=
  (validateLang_names_missing taxlessPack "en").2.2
    ((jsonFields taxlessPack).take 12) ((jsonFields taxlessPack).drop 13) "_tax" rfl
    (by decide)

/-! ## Total due -/

/-- C9: whatever the subtotal, tax, discount and paid amounts are, the last line
`writeTotals` draws is the total-due line, in bold, and its value is the value of the
total-gross-price line, subtotal + tax − discount, minus the paid amount, with no
clamping: in the sample run, where paid is 10 and total gross is −190, it reads
"-200.00 USD". -/
theorem total_due_written (tw : TextWidth) (ls : LangStrings) (file : Invoice) (pdf : GoPdf)
    (startY subtotal tax discount : ℚ) :
    (totalLine (grossY startY discount) "Inter" ls.TotalGrossPrice
        (FormatFloat (subtotal + tax - discount) ++ " " ++ file.Currency) <:+:
      drawnSince pdf (writeTotals tw ls file pdf startY subtotal tax discount)) ∧
    (totalLine (dividerY file startY discount + 10) "Inter-Bold" ls.TotalDue
        (FormatFloat (subtotal + tax - discount - file.Paid) ++ " " ++ file.Currency) <:+
      drawnSince pdf (writeTotals tw ls file pdf startY subtotal tax discount)) ∧
    (texts (totalsBlock sampleWidth samplePack sampleInvoice samplePage)).getLast? =
      some "-200.00 USD" := by
  refine ⟨?_, ?_, ?_⟩
  · rw [drawnSince_writeTotals, totalsTail]
    refine ⟨totalsHead ls file startY subtotal tax ++
      (if discount > 0 then
        totalLine (startY + 60) "Inter" ls.Discount (withCode file discount) else []),
      (if file.Paid ≠ 0 then
        totalLine (grossY startY discount + 20) "Inter" ls.PaidLabel (withCode file file.Paid)
        else []) ++
      [Draw.line amountColumnOffset (dividerY file startY discount) (pageWidth - 40)
        (dividerY file startY discount) (225, 225, 225)] ++
      totalLine (dividerY file startY discount + 10) "Inter-Bold" ls.TotalDue
        (withCode file (subtotal + tax - discount - file.Paid)), ?_⟩
    simp [withCode, List.append_assoc]
  · rw [drawnSince_writeTotals, totalsTail]
    refine ⟨totalsHead ls file startY subtotal tax ++
      (if discount > 0 then
        totalLine (startY + 60) "Inter" ls.Discount (withCode file discount) else []) ++
      (totalLine (grossY startY discount) "Inter" ls.TotalGrossPrice
        (withCode file (subtotal + tax - discount)) ++
      (if file.Paid ≠ 0 then
        totalLine (grossY startY discount + 20) "Inter" ls.PaidLabel (withCode file file.Paid)
        else []) ++
      [Draw.line amountColumnOffset (dividerY file startY discount) (pageWidth - 40)
        (dividerY file startY discount) (225, 225, 225)]), ?_⟩
    simp [withCode, List.append_assoc]
  · rw [sampleInvoice_texts]
    rfl

/-! ## Currency cells -/

/-- The continuation lines of a row only add to what is drawn. -/
theorem continuation_out (tw : TextWidth) (leftMargin lineHeight : ℚ) (lines : List String)
    (pdf : GoPdf) :
    ∃ extra, (lines.foldl (fun p l => ((p.SetX leftMargin).Cell tw l).Br lineHeight) pdf).out =
      pdf.out ++ extra := by
  induction lines generalizing pdf with
  | nil => exact ⟨[], by simp⟩
  | cons l rest ih =>
    obtain ⟨extra, h⟩ := ih (((pdf.SetX leftMargin).Cell tw l).Br lineHeight)
    refine ⟨Draw.text leftMargin pdf.y pdf.font pdf.fontSize pdf.textColor l :: extra, ?_⟩
    rw [List.foldl_cons, h]
    simp [GoPdf.SetX, GoPdf.Cell, GoPdf.Br]

/-- What `writeRow` draws starts with the six cells of the first line. -/
theorem writeRow_out (tw : TextWidth) (ls : LangStrings) (file : Invoice) (pdf : GoPdf)
    (item : String) (quantity : Int) (rate : ℚ) :
    ∃ extra, (writeRow tw ls file pdf item quantity rate).out =
      pdf.out ++ (rowCells tw ls file pdf item quantity rate ++ extra) := by
  have e1 : ((pdf.SetFont "Inter" bodyFontSize).SetTextColor 0 0 0).MarginLeft =
      pdf.marginLeft := rfl
  have e2 : GoPdf.MeasureTextWidth tw ((pdf.SetFont "Inter" bodyFontSize).SetTextColor 0 0 0) =
      tw "Inter" bodyFontSize := rfl
  have e3 : ∀ p : GoPdf,
      (if (wrapLines (tw "Inter" bodyFontSize) (quantityColumnOffset - 10 - pdf.marginLeft)
          item).length > 0 then
        GoPdf.Cell tw p ((wrapLines (tw "Inter" bodyFontSize)
          (quantityColumnOffset - 10 - pdf.marginLeft) item).headD "")
      else GoPdf.Cell tw p item) = GoPdf.Cell tw p (firstLine tw pdf item) := by
    intro p
    by_cases hl : (wrapLines (tw "Inter" bodyFontSize)
        (quantityColumnOffset - 10 - pdf.marginLeft) item).length > 0
    · simp only [firstLine, hl, if_true]
    · simp only [firstLine, hl, if_false]
  unfold writeRow
  simp only [e1, e2, e3]
  obtain ⟨extra, h⟩ := continuation_out tw pdf.marginLeft bodyLineHeight
    ((wrapLines (tw "Inter" bodyFontSize) (quantityColumnOffset - 10 - pdf.marginLeft)
      item).drop 1)
    ((GoPdf.Cell tw ((GoPdf.Cell tw ((GoPdf.Cell tw ((GoPdf.Cell tw ((GoPdf.Cell tw
      ((GoPdf.Cell tw (((pdf.SetFont "Inter" bodyFontSize).SetTextColor 0 0 0).SetX
        pdf.marginLeft) (firstLine tw pdf item)).SetX quantityColumnOffset)
      (toString quantity)).SetX rateColumnOffset)
      (currencySymbol file.Currency ++ FormatFloat rate)).SetX amountColumnOffset)
      (currencySymbol file.Currency ++ FormatFloat ((quantity : ℚ) * rate))).SetX
      taxColumnOffset)
      (if file.Tax ≠ 0 then FormatFloat (file.Tax * 100) ++ "%" else ls.NA)).SetX
      grossColumnOffset)
      (currencySymbol file.Currency ++
        FormatFloat ((quantity : ℚ) * rate + (quantity : ℚ) * rate * file.Tax))).Br
      bodyLineHeight)
  refine ⟨extra, ?_⟩
  rw [GoPdf.Br, h]
  simp [rowCells, taxRateValue, GoPdf.SetFont, GoPdf.SetTextColor, GoPdf.SetX,
    GoPdf.Cell, GoPdf.Br]

theorem lookup_unregistered (code : String) (table : List (String × String))
    (h : ∀ kv ∈ table, kv.1 ≠ code) : table.lookup code = none := by
  induction table with
  | nil => rfl
  | cons kv rest ih =>
    obtain ⟨k, v⟩ := kv
    have hk : (code == k) = false := by
      have hne : k ≠ code := h (k, v) (List.mem_cons_self _ _)
      exact beq_eq_false_iff_ne.mpr (Ne.symm hne)
    rw [List.lookup_cons, hk]
    exact ih (fun x hx => h x (List.mem_cons_of_mem _ hx))

/-- C10: the unit-rate, net and gross cells of an item row are the symbol that
`currencySymbols` registers for the currency code followed by the amount to two
decimals; every key of the map yields its symbol and every other code yields no
prefix, so that the cell is the bare amount ("50.00" for "XYZ"); the value cell of
`writeTotalWithCode` is the amount to two decimals, a space and the currency code
("50.00 XYZ"). -/
theorem currency_cells (tw : TextWidth) (ls : LangStrings) (file : Invoice) (pdf : GoPdf)
    (item : String) (quantity : Int) (rate : ℚ) (label : String) (total : ℚ) (bold : Bool) :
    ((drawnSince pdf (writeRow tw ls file pdf item quantity rate))[2]? =
      some (Draw.text rateColumnOffset pdf.y "Inter" bodyFontSize (0, 0, 0)
        (currencySymbol file.Currency ++ FormatFloat rate))) ∧
    ((drawnSince pdf (writeRow tw ls file pdf item quantity rate))[3]? =
      some (Draw.text amountColumnOffset pdf.y "Inter" bodyFontSize (0, 0, 0)
        (currencySymbol file.Currency ++ FormatFloat ((quantity : ℚ) * rate)))) ∧
    ((drawnSince pdf (writeRow tw ls file pdf item quantity rate))[5]? =
      some (Draw.text grossColumnOffset pdf.y "Inter" bodyFontSize (0, 0, 0)
        (currencySymbol file.Currency ++
          FormatFloat ((quantity : ℚ) * rate + (quantity : ℚ) * rate * file.Tax)))) ∧
    (∀ kv ∈ currencySymbols, currencySymbol kv.1 = kv.2) ∧
    (∀ code : String, (∀ kv ∈ currencySymbols, kv.1 ≠ code) →
      currencySymbol code = "" ∧ currencySymbol code ++ FormatFloat total = FormatFloat total) ∧
    currencySymbol "XYZ" ++ FormatFloat 50 = "50.00" ∧
    ((drawnSince pdf (writeTotalWithCode tw file pdf label total bold))[1]? =
      some (Draw.text grossColumnOffset pdf.y (if bold then "Inter-Bold" else "Inter")
        bodyFontSize (0, 0, 0) (FormatFloat total ++ " " ++ file.Currency))) ∧
    FormatFloat 50 ++ " " ++ "XYZ" = "50.00 XYZ" := by
  obtain ⟨extra, hrow⟩ := writeRow_out tw ls file pdf item quantity rate
  have hdrop : drawnSince pdf (writeRow tw ls file pdf item quantity rate) =
      rowCells tw ls file pdf item quantity rate ++ extra := by
    simp [drawnSince, hrow]
  have hsym : ∀ code : String, (∀ kv ∈ currencySymbols, kv.1 ≠ code) →
      currencySymbol code = "" := by
    intro code h
    simp [currencySymbol, lookup_unregistered code currencySymbols h]
  refine ⟨?_, ?_, ?_, by decide, ?_, by decide, ?_, by decide⟩
  · rw [hdrop]
    simp [rowCells]
  · rw [hdrop]
    simp [rowCells]
  · rw [hdrop]
    simp [rowCells]
  · intro code h
    rw [hsym code h]
    exact ⟨rfl, String.empty_append _⟩
  · simp [drawnSince, writeTotalWithCode_out, totalLine, withCode]

/-- C10 at a concrete input: "XYZ" is not a key of `currencySymbols`, so it has no
symbol and the cell for 50 is the bare "50.00". -/
theorem currency_cells_witness :
    currencySymbol "XYZ" = "" ∧ currencySymbol "XYZ" ++ FormatFloat 50 = FormatFloat 50 :=
  (currency_cells sampleWidth samplePack sampleInvoice samplePage "Paper Cranes" 2 25
    "Total net price" 50 false).2.2.2.2.1 "XYZ" (by decide)

/-! ## Seller and buyer columns -/

/-- The body lines of a party column as drawn: line `i` at `x`, `15 i` below `y`, in
the colour `color i`; `good` is what the loop keeps true of the canvas. -/
theorem columnLines_foldl (x : ℚ) (color : Nat → Color)
    (lines : List String) (step : GoPdf → Nat → GoPdf) (good : GoPdf → Prop)
    (hgood : ∀ p i, good p → good (step p i))
    (hy : ∀ p i, (step p i).y = p.y + 15)
    (hout : ∀ p i, good p → (step p i).out =
      p.out ++ [Draw.text x p.y "Inter" bodyFontSize (color i) (lines.getD i "")])
    (p : GoPdf) (hp : good p) (n : Nat) :
    good ((List.range n).foldl step p) ∧
    ((List.range n).foldl step p).y = p.y + 15 * (n : ℚ) ∧
    ((List.range n).foldl step p).out =
      p.out ++ (List.range n).map fun (i : Nat) =>
        Draw.text x (p.y + 15 * (i : ℚ)) "Inter" bodyFontSize (color i) (lines.getD i "") := by
  induction n with
  | zero => simpa using hp
  | succ n ih =>
    rw [List.range_succ, List.foldl_append, List.foldl_cons, List.foldl_nil, hy,
      hout _ _ ih.1, ih.2.1, ih.2.2]
    refine ⟨hgood _ _ ih.1, ?_, ?_⟩
    · push_cast
      ring
    · simp [List.map_append]

theorem sellerColumn_spec (tw : TextWidth) (ls : LangStrings) (pdf : GoPdf) (leftX : ℚ)
    (from_ : String) :
    (sellerColumn tw ls pdf leftX from_).y =
      pdf.y + 24 + 15 * ((splitLines from_).length : ℚ) ∧
    (sellerColumn tw ls pdf leftX from_).out =
      pdf.out ++ (Draw.text leftX pdf.y "Inter" bodyFontSize (75, 75, 75) ls.Seller ::
        (List.range (splitLines from_).length).map fun (i : Nat) =>
          Draw.text leftX (pdf.y + 24 + 15 * (i : ℚ)) "Inter" bodyFontSize (55, 55, 55)
            ((splitLines from_).getD i "")) := by
  have h := columnLines_foldl leftX (fun _ => (55, 55, 55)) (splitLines from_)
    (fun p i =>
      let p := p.SetX leftX
      let p := p.SetFont "Inter" bodyFontSize
      let p := p.Cell tw ((splitLines from_).getD i "")
      p.Br bodyLineHeight)
    (fun p => p.textColor = (55, 55, 55))
    (fun p i hp => by simpa [GoPdf.SetX, GoPdf.SetFont, GoPdf.Cell, GoPdf.Br] using hp)
    (fun p i => by simp [GoPdf.SetX, GoPdf.SetFont, GoPdf.Cell, GoPdf.Br, bodyLineHeight])
    (fun p i hp => by simp [GoPdf.SetX, GoPdf.SetFont, GoPdf.Cell, GoPdf.Br, hp])
    ((((((pdf.SetX leftX).SetTextColor 75 75 75).SetFont "Inter" bodyFontSize).Cell tw
      ls.Seller).Br 24).SetTextColor 55 55 55)
    rfl (splitLines from_).length
  unfold sellerColumn
  refine ⟨h.2.1.trans ?_, h.2.2.trans ?_⟩
  · simp [GoPdf.SetX, GoPdf.SetFont, GoPdf.Cell, GoPdf.Br, GoPdf.SetTextColor]
  · simp [GoPdf.SetX, GoPdf.SetFont, GoPdf.Cell, GoPdf.Br, GoPdf.SetTextColor]

theorem buyerColumn_spec (tw : TextWidth) (ls : LangStrings) (pdf : GoPdf) (rightX startY : ℚ)
    (to_ : String) :
    (buyerColumn tw ls pdf rightX startY to_).y =
      startY + 24 + 15 * ((splitLines to_).length : ℚ) ∧
    (buyerColumn tw ls pdf rightX startY to_).out =
      pdf.out ++ (Draw.text rightX startY "Inter" bodyFontSize (75, 75, 75) ls.Buyer ::
        (List.range (splitLines to_).length).map fun (i : Nat) =>
          Draw.text rightX (startY + 24 + 15 * (i : ℚ)) "Inter" bodyFontSize
            (if i = 0 then (0, 0, 0) else (55, 55, 55)) ((splitLines to_).getD i "")) := by
  have h := columnLines_foldl rightX (fun i => if i = 0 then (0, 0, 0) else (55, 55, 55))
    (splitLines to_)
    (fun p i =>
      let p := p.SetX rightX
      let p := if i = 0 then p.SetTextColor 0 0 0 else p.SetTextColor 55 55 55
      let p := p.SetFont "Inter" bodyFontSize
      let p := p.Cell tw ((splitLines to_).getD i "")
      p.Br bodyLineHeight)
    (fun _ => True)
    (fun _ _ _ => trivial)
    (fun p i => by
      by_cases hi : i = 0 <;>
        simp [GoPdf.SetX, GoPdf.SetFont, GoPdf.Cell, GoPdf.Br, GoPdf.SetTextColor,
          bodyLineHeight, hi])
    (fun p i _ => by
      by_cases hi : i = 0 <;>
        simp [GoPdf.SetX, GoPdf.SetFont, GoPdf.Cell, GoPdf.Br, GoPdf.SetTextColor, hi])
    (((((pdf.SetXY rightX startY).SetTextColor 75 75 75).SetFont "Inter" bodyFontSize).Cell tw
      ls.Buyer).Br 24)
    trivial (splitLines to_).length
  unfold buyerColumn
  refine ⟨h.2.1.trans ?_, h.2.2.trans ?_⟩
  · simp [GoPdf.SetXY, GoPdf.SetFont, GoPdf.Cell, GoPdf.Br, GoPdf.SetTextColor]
  · simp [GoPdf.SetXY, GoPdf.SetFont, GoPdf.Cell, GoPdf.Br, GoPdf.SetTextColor]

/-- The cursor Y after `writeSellerBuyerColumns`. -/
theorem writeSellerBuyerColumns_y (tw : TextWidth) (ls : LangStrings) (pdf : GoPdf)
    (from_ to_ : String) :
    (writeSellerBuyerColumns tw ls pdf from_ to_).y =
      pdf.y + 24 + 15 * ((max (splitLines from_).length (splitLines to_).length : Nat) : ℚ) +
        48 := by
  have hs := (sellerColumn_spec tw ls pdf 40 from_).1
  have hb := (buyerColumn_spec tw ls (sellerColumn tw ls pdf 40 from_) sellerBuyerColSplit
    pdf.y to_).1
  unfold writeSellerBuyerColumns
  simp only [GoPdf.GetY, hs, hb]
  rcases le_total (splitLines from_).length (splitLines to_).length with h | h
  · have hc : ((splitLines from_).length : ℚ) ≤ ((splitLines to_).length : ℚ) := by
      exact_mod_cast h
    have hn : ¬ (pdf.y + 24 + 15 * ((splitLines from_).length : ℚ) >
        pdf.y + 24 + 15 * ((splitLines to_).length : ℚ)) := by
      intro hgt
      linarith
    simp [hn, max_eq_right h, GoPdf.SetY, GoPdf.SetX, GoPdf.Br, hb]
  · by_cases hgt : pdf.y + 24 + 15 * ((splitLines from_).length : ℚ) >
        pdf.y + 24 + 15 * ((splitLines to_).length : ℚ)
    · simp [hgt, max_eq_left h, GoPdf.SetY, GoPdf.SetX, GoPdf.Br]
    · have hc : ((splitLines to_).length : ℚ) ≤ ((splitLines from_).length : ℚ) := by
        exact_mod_cast h
      have he : ((splitLines from_).length : ℚ) = ((splitLines to_).length : ℚ) := by
        linarith
      simp [hgt, max_eq_left h, GoPdf.SetY, GoPdf.SetX, GoPdf.Br, hb, he]

theorem writeSellerBuyerColumns_out (tw : TextWidth) (ls : LangStrings) (pdf : GoPdf)
    (from_ to_ : String) :
    (writeSellerBuyerColumns tw ls pdf from_ to_).out =
      pdf.out ++
        ((Draw.text 40 pdf.y "Inter" bodyFontSize (75, 75, 75) ls.Seller ::
          (List.range (splitLines from_).length).map fun (i : Nat) =>
            Draw.text 40 (pdf.y + 24 + 15 * (i : ℚ)) "Inter" bodyFontSize (55, 55, 55)
              ((splitLines from_).getD i "")) ++
        (Draw.text sellerBuyerColSplit pdf.y "Inter" bodyFontSize (75, 75, 75) ls.Buyer ::
          (List.range (splitLines to_).length).map fun (i : Nat) =>
            Draw.text sellerBuyerColSplit (pdf.y + 24 + 15 * (i : ℚ)) "Inter" bodyFontSize
              (if i = 0 then (0, 0, 0) else (55, 55, 55)) ((splitLines to_).getD i ""))) := by
  have hs := (sellerColumn_spec tw ls pdf 40 from_).2
  have hb := (buyerColumn_spec tw ls (sellerColumn tw ls pdf 40 from_) sellerBuyerColSplit
    pdf.y to_).2
  unfold writeSellerBuyerColumns
  simp only [GoPdf.GetY]
  split <;> simp [GoPdf.SetY, GoPdf.SetX, GoPdf.Br, hb, hs]

/-- C11, as the code has it: both party columns start at the Y the writer was called
at (the two labels there, line `i` of either column `24 + 15 i` below); the seller
column ends at startY + 24 + 15 m and the buyer column at startY + 24 + 15 n, where m
and n count the lines of the texts once every escaped-newline marker is replaced by a
line feed and the text is split on line feeds, so that a line feed already in the text
separates lines too; the cursor Y after the writer is the larger of the two ends plus
48, that is startY + 24 + 15·max(m, n) + 48, and it is at or beyond both ends. -/
theorem party_columns_bottom (tw : TextWidth) (ls : LangStrings) (pdf : GoPdf)
    (from_ to_ : String) :
    drawnSince pdf (writeSellerBuyerColumns tw ls pdf from_ to_) =
      (Draw.text 40 pdf.y "Inter" bodyFontSize (75, 75, 75) ls.Seller ::
        (List.range (splitLines from_).length).map fun (i : Nat) =>
          Draw.text 40 (pdf.y + 24 + 15 * (i : ℚ)) "Inter" bodyFontSize (55, 55, 55)
            ((splitLines from_).getD i "")) ++
      (Draw.text sellerBuyerColSplit pdf.y "Inter" bodyFontSize (75, 75, 75) ls.Buyer ::
        (List.range (splitLines to_).length).map fun (i : Nat) =>
          Draw.text sellerBuyerColSplit (pdf.y + 24 + 15 * (i : ℚ)) "Inter" bodyFontSize
            (if i = 0 then (0, 0, 0) else (55, 55, 55)) ((splitLines to_).getD i "")) ∧
    leftBottom tw ls pdf from_ = pdf.y + 24 + 15 * ((splitLines from_).length : ℚ) ∧
    rightBottom tw ls pdf from_ to_ = pdf.y + 24 + 15 * ((splitLines to_).length : ℚ) ∧
    (writeSellerBuyerColumns tw ls pdf from_ to_).y =
      max (leftBottom tw ls pdf from_) (rightBottom tw ls pdf from_ to_) + 48 ∧
    (writeSellerBuyerColumns tw ls pdf from_ to_).y =
      pdf.y + 24 + 15 * ((max (splitLines from_).length (splitLines to_).length : Nat) : ℚ) +
        48 ∧
    leftBottom tw ls pdf from_ ≤ (writeSellerBuyerColumns tw ls pdf from_ to_).y ∧
    rightBottom tw ls pdf from_ to_ ≤ (writeSellerBuyerColumns tw ls pdf from_ to_).y := by
  have hl : leftBottom tw ls pdf from_ = pdf.y + 24 + 15 * ((splitLines from_).length : ℚ) :=
    (sellerColumn_spec tw ls pdf 40 from_).1
  have hr : rightBottom tw ls pdf from_ to_ =
      pdf.y + 24 + 15 * ((splitLines to_).length : ℚ) :=
    (buyerColumn_spec tw ls (sellerColumn tw ls pdf 40 from_) sellerBuyerColSplit pdf.y to_).1
  have hy := writeSellerBuyerColumns_y tw ls pdf from_ to_
  have hmax : max (leftBottom tw ls pdf from_) (rightBottom tw ls pdf from_ to_) =
      pdf.y + 24 +
        15 * ((max (splitLines from_).length (splitLines to_).length : Nat) : ℚ) := by
    rw [hl, hr]
    rcases le_total (splitLines from_).length (splitLines to_).length with h | h
    · have hc : ((splitLines from_).length : ℚ) ≤ ((splitLines to_).length : ℚ) := by
        exact_mod_cast h
      rw [max_eq_right h, max_eq_right (by linarith)]
    · have hc : ((splitLines to_).length : ℚ) ≤ ((splitLines from_).length : ℚ) := by
        exact_mod_cast h
      rw [max_eq_left h, max_eq_left (by linarith)]
  refine ⟨?_, hl, hr, ?_, hy, ?_, ?_⟩
  · simp [drawnSince, writeSellerBuyerColumns_out]
  · rw [hy, hmax]
  · rw [hy, ← hmax]
    have := le_max_left (leftBottom tw ls pdf from_) (rightBottom tw ls pdf from_ to_)
    linarith
  · rw [hy, ← hmax]
    have := le_max_right (leftBottom tw ls pdf from_) (rightBottom tw ls pdf from_ to_)
    linarith

/-- C11 fails as stated: the seller text "a", line feed, "b" has no escaped-newline
marker, so splitting on the marker gives one line for it and one for the buyer text
"x", and the claimed cursor Y from 40 is 40 + 24 + 15 + 48 = 127; the code splits on the
line feed as well, draws two seller lines and leaves the cursor at 142. -/
theorem party_columns_bottom_counterexample :
    (splitOnMarker "a\nb").length = 1 ∧ (splitOnMarker "x").length = 1 ∧
    (splitLines "a\nb").length = 2 ∧
    (writeSellerBuyerColumns sampleWidth samplePack samplePage "a\nb" "x").y = 142 ∧
    (writeSellerBuyerColumns sampleWidth samplePack samplePage "a\nb" "x").y ≠
      samplePage.y + 24 +
        15 * ((max (splitOnMarker "a\nb").length (splitOnMarker "x").length : Nat) : ℚ) +
        48 := by
  have h1 : (splitOnMarker "a\nb").length = 1 := by decide
  have h2 : (splitOnMarker "x").length = 1 := by decide
  have h3 : (splitLines "a\nb").length = 2 := by decide
  have h4 : (splitLines "x").length = 1 := by decide
  have hy : (writeSellerBuyerColumns sampleWidth samplePack samplePage "a\nb" "x").y = 142 := by
    rw [writeSellerBuyerColumns_y, h3, h4]
    norm_num [samplePage]
  refine ⟨h1, h2, h3, hy, ?_⟩
  rw [hy, h1, h2]
  norm_num [samplePage]

/-! ## The order of the totals lines -/

/-- C12: every call of `writeTotals` draws, in this order, the total-net-price line, the
tax-rate line, the tax-amount line, the discount line when the discount amount is > 0,
the total-gross-price line, the paid line exactly when paid is not 0, the narrow
divider and the total-due line; the bold drawings are exactly the two cells of the
total-due line; and with tax 0, discount 0 and paid 0 there is neither a discount nor
a paid line and the net, gross and due lines all carry the subtotal. -/
theorem totals_order (tw : TextWidth) (ls : LangStrings) (file : Invoice) (pdf : GoPdf)
    (startY subtotal tax discount : ℚ) :
    drawnSince pdf (writeTotals tw ls file pdf startY subtotal tax discount) =
      totalLine startY "Inter" ls.TotalNetPrice (FormatFloat subtotal ++ " " ++ file.Currency) ++
      totalLine (startY + 20) "Inter"
        ((if file.TaxName ≠ "" then file.TaxName else ls.Tax) ++ " " ++ ls.Rate)
        (if file.Tax ≠ 0 then FormatFloat (file.Tax * 100) ++ "%" else ls.NA) ++
      totalLine (startY + 40) "Inter"
        ((if file.TaxName ≠ "" then file.TaxName else ls.Tax) ++ " " ++ ls.Amount)
        (FormatFloat tax ++ " " ++ file.Currency) ++
      (if discount > 0 then
        totalLine (startY + 60) "Inter" ls.Discount (FormatFloat discount ++ " " ++ file.Currency)
        else []) ++
      totalLine (grossY startY discount) "Inter" ls.TotalGrossPrice
        (FormatFloat (subtotal + tax - discount) ++ " " ++ file.Currency) ++
      (if file.Paid ≠ 0 then
        totalLine (grossY startY discount + 20) "Inter" ls.PaidLabel
          (FormatFloat file.Paid ++ " " ++ file.Currency)
        else []) ++
      [Draw.line amountColumnOffset (dividerY file startY discount) (pageWidth - 40)
        (dividerY file startY discount) (225, 225, 225)] ++
      totalLine (dividerY file startY discount + 10) "Inter-Bold" ls.TotalDue
        (FormatFloat (subtotal + tax - discount - file.Paid) ++ " " ++ file.Currency) ∧
    (drawnSince pdf (writeTotals tw ls file pdf startY subtotal tax discount)).filter isBold =
      totalLine (dividerY file startY discount + 10) "Inter-Bold" ls.TotalDue
        (FormatFloat (subtotal + tax - discount - file.Paid) ++ " " ++ file.Currency) ∧
    (tax = 0 → discount = 0 → file.Paid = 0 →
      drawnSince pdf (writeTotals tw ls file pdf startY subtotal tax discount) =
        totalLine startY "Inter" ls.TotalNetPrice
          (FormatFloat subtotal ++ " " ++ file.Currency) ++
        totalLine (startY + 20) "Inter"
          ((if file.TaxName ≠ "" then file.TaxName else ls.Tax) ++ " " ++ ls.Rate)
          (if file.Tax ≠ 0 then FormatFloat (file.Tax * 100) ++ "%" else ls.NA) ++
        totalLine (startY + 40) "Inter"
          ((if file.TaxName ≠ "" then file.TaxName else ls.Tax) ++ " " ++ ls.Amount)
          (FormatFloat 0 ++ " " ++ file.Currency) ++
        totalLine (startY + 60) "Inter" ls.TotalGrossPrice
          (FormatFloat subtotal ++ " " ++ file.Currency) ++
        [Draw.line amountColumnOffset (startY + 80) (pageWidth - 40) (startY + 80)
          (225, 225, 225)] ++
        totalLine (startY + 90) "Inter-Bold" ls.TotalDue
          (FormatFloat subtotal ++ " " ++ file.Currency)) := by
  have hfull := drawnSince_writeTotals tw ls file pdf startY subtotal tax discount
  refine ⟨?_, ?_, ?_⟩
  · rw [hfull]
    simp [totalsHead, totalsTail, withCode, baseTaxLabel, taxRateValue, List.append_assoc]
  · rw [hfull]
    by_cases hd : discount > 0 <;> by_cases hp : file.Paid = 0 <;>
      simp [hd, hp, totalsHead, totalsTail, totalLine, withCode, List.filter_cons, isBold]
  · intro ht hd hp
    rw [hfull, ht, hd]
    simp [totalsHead, totalsTail, withCode, baseTaxLabel, taxRateValue, grossY, dividerY,
      List.append_assoc, hp]
    norm_num [add_assoc]

/-- C12 at a concrete input: the first scenario of the specification, one item of
quantity 2 and rate 25 with no tax, discount or paid amount, hence a subtotal of 50. -/
theorem totals_order_witness :
    plainInvoice.Paid = 0 ∧
    texts (drawnSince samplePage
      (writeTotals sampleWidth samplePack plainInvoice samplePage 100 50 0 0)) =
      ["Total net price", "50.00 USD", "Tax rate", "N/A", "Tax amount", "0.00 USD",
        "Total gross price", "50.00 USD", "Total due", "50.00 USD"] := by
  refine ⟨rfl, ?_⟩
  rw [(totals_order sampleWidth samplePack plainInvoice samplePage 100 50 0 0).2.2 rfl rfl rfl]
  have h1 : FormatFloat 50 = "50.00" := by decide
  have h2 : FormatFloat 0 = "0.00" := by decide
  norm_num [texts_append, texts_totalLine, texts, plainInvoice, sampleInvoice, samplePack,
    h1, h2]
  decide

/-! ## Table and totals agree -/

/-- C13: in exact arithmetic the gross cell of each item row shows net + net×Tax with
net = quantity×rate, the totals block shows the subtotal on its total-net-price line
and subtotal×Tax on its tax-amount line, and the sum of the row gross amounts over the
rendered rows is subtotal + subtotal×Tax. -/
theorem row_gross_sum (tw : TextWidth) (ls : LangStrings) (file : Invoice) (pdf : GoPdf) :
    (∀ (page : GoPdf) (item : String) (quantity : Int) (rate : ℚ),
      (drawnSince page (writeRow tw ls file page item quantity rate))[5]? =
        some (Draw.text grossColumnOffset page.y "Inter" bodyFontSize (0, 0, 0)
          (currencySymbol file.Currency ++
            FormatFloat ((quantity : ℚ) * rate + (quantity : ℚ) * rate * file.Tax)))) ∧
    (texts (totalsBlock tw ls file pdf))[1]? =
      some (FormatFloat (itemsLoop tw ls file pdf).2 ++ " " ++ file.Currency) ∧
    (texts (totalsBlock tw ls file pdf))[5]? =
      some (FormatFloat ((itemsLoop tw ls file pdf).2 * file.Tax) ++ " " ++ file.Currency) ∧
    (((List.range file.Items.length).filter fun i => file.Quantities.getD i 1 ≠ 0).map
      fun i => (file.Quantities.getD i 1 : ℚ) * file.Rates.getD i 0 +
        (file.Quantities.getD i 1 : ℚ) * file.Rates.getD i 0 * file.Tax).sum =
      (itemsLoop tw ls file pdf).2 + (itemsLoop tw ls file pdf).2 * file.Tax := by
  refine ⟨?_, ?_, ?_, ?_⟩
  · intro page item quantity rate
    obtain ⟨extra, hrow⟩ := writeRow_out tw ls file page item quantity rate
    simp [drawnSince, hrow, rowCells]
  · rw [texts_totalsBlock]
    simp [withCode, subtotalOf]
  · rw [texts_totalsBlock]
    simp [withCode, subtotalOf]
  · rw [itemsLoop_subtotal, shownItems]
    simp only [quantityOf, rateOf]
    rw [List.sum_map_add, List.sum_map_mul_right]

/-! ## The word wrap is greedy -/

/-- What the wrap loop keeps true of its state: the line being filled is empty only
before the first word, every line has a word, and every break made so far is forced. -/
theorem forced_wrapStep (measure : String → ℚ) (maxItemWidth : ℚ)
    (st : List String × String) (w : String) (hw : w ≠ "") (hf : Fields w = [w])
    (h0 : st.2 = "" → st.1 = [])
    (h1 : ∀ l ∈ committed st, Fields l ≠ [])
    (h2 : List.Chain' (forcedBreak measure maxItemWidth) (committed st)) :
    ((wrapStep measure maxItemWidth st w).2 ≠ "") ∧
    (∀ l ∈ committed (wrapStep measure maxItemWidth st w), Fields l ≠ []) ∧
    List.Chain' (forcedBreak measure maxItemWidth)
      (committed (wrapStep measure maxItemWidth st w)) := by
  obtain ⟨lines, current⟩ := st
  by_cases hc : current = ""
  · have hl : lines = [] := h0 hc
    have e : wrapStep measure maxItemWidth (lines, current) w = ([], w) := by
      simp [wrapStep, hc, hl]
    rw [e]
    refine ⟨hw, ?_, ?_⟩
    · intro l hl2
      have : l = w := by simpa [committed, hw] using hl2
      rw [this, hf]
      simp
    · simp [committed, hw]
  · have hcom : committed (lines, current) = lines ++ [current] := by
      simp [committed, hc]
    rw [hcom] at h1 h2
    have hcur : Fields current ≠ [] := h1 current (by simp)
    by_cases hfit : measure (current ++ " " ++ w) ≤ maxItemWidth
    · have hne : current ++ " " ++ w ≠ "" := by
        intro h
        have := congrArg String.data h
        simp at this
      have e : wrapStep measure maxItemWidth (lines, current) w =
          (lines, current ++ " " ++ w) := by
        simp [wrapStep, hc, hfit]
      have hcom2 : committed (lines, current ++ " " ++ w) =
          lines ++ [current ++ " " ++ w] := by
        simp [committed, hne]
      rw [e, hcom2]
      refine ⟨hne, ?_, ?_⟩
      · intro l hl
        rcases List.mem_append.mp hl with hl | hl
        · exact h1 l (List.mem_append_left _ hl)
        · rw [List.mem_singleton.mp hl, Fields_glue, hf]
          simp
      · rw [List.chain'_append] at h2 ⊢
        refine ⟨h2.1, List.chain'_singleton _, ?_⟩
        intro x hx y hy
        have hy2 : y = current ++ " " ++ w := by simpa using hy.symm
        have hold := h2.2.2 x hx current (by simp)
        intro v hv
        rw [hy2, Fields_glue, hf, List.head?_append_of_ne_nil _ hcur] at hv
        exact hold v hv
    · have e : wrapStep measure maxItemWidth (lines, current) w = (lines ++ [current], w) := by
        simp [wrapStep, hc, hfit]
      have hcom2 : committed (lines ++ [current], w) = (lines ++ [current]) ++ [w] := by
        simp [committed, hw]
      rw [e, hcom2]
      refine ⟨hw, ?_, ?_⟩
      · intro l hl
        rcases List.mem_append.mp hl with hl | hl
        · exact h1 l hl
        · rw [List.mem_singleton.mp hl, hf]
          simp
      · rw [List.chain'_append]
        refine ⟨h2, List.chain'_singleton _, ?_⟩
        intro x hx y hy
        have hx2 : x = current := by simpa using hx.symm
        have hy2 : y = w := by simpa using hy.symm
        intro v hv
        rw [hy2, hf] at hv
        have hv2 : v = w := by simpa using hv.symm
        rw [hx2, hv2]
        exact lt_of_not_ge hfit

theorem forced_foldl (measure : String → ℚ) (maxItemWidth : ℚ) (words : List String)
    (hw : ∀ w ∈ words, w ≠ "") (hf : ∀ w ∈ words, Fields w = [w])
    (st : List String × String)
    (h0 : st.2 = "" → st.1 = [])
    (h1 : ∀ l ∈ committed st, Fields l ≠ [])
    (h2 : List.Chain' (forcedBreak measure maxItemWidth) (committed st)) :
    (∀ l ∈ committed (words.foldl (wrapStep measure maxItemWidth) st), Fields l ≠ []) ∧
    List.Chain' (forcedBreak measure maxItemWidth)
      (committed (words.foldl (wrapStep measure maxItemWidth) st)) := by
  induction words generalizing st with
  | nil => exact ⟨h1, h2⟩
  | cons w rest ih =>
    rw [List.foldl_cons]
    have hstep := forced_wrapStep measure maxItemWidth st w (hw w (List.mem_cons_self _ _))
      (hf w (List.mem_cons_self _ _)) h0 h1 h2
    exact ih (fun x hx => hw x (List.mem_cons_of_mem _ hx))
      (fun x hx => hf x (List.mem_cons_of_mem _ hx)) _
      (fun h => absurd h hstep.1) hstep.2.1 hstep.2.2

theorem chain_at (R : String → String → Prop) (l : List String) (h : List.Chain' R l) :
    ∀ (i : Nat) (a b : String), l[i]? = some a → l[i + 1]? = some b → R a b := by
  induction l with
  | nil =>
    intro i a b ha
    simp at ha
  | cons x rest ih =>
    intro i a b ha hb
    rw [List.chain'_cons'] at h
    cases i with
    | zero =>
      simp only [List.getElem?_cons_zero, Option.some.injEq] at ha
      simp only [zero_add, List.getElem?_cons_succ] at hb
      rw [← ha]
      apply h.1 b
      rw [List.head?_eq_getElem?]
      exact hb
    | succ k =>
      simp only [List.getElem?_cons_succ] at ha hb
      exact ih h.2 k a b ha hb

/-- C14: for every item text, every width measure and every maximum width, each line of
the word-wrap of `writeRow` that is followed by another line is such that the later
line has a first word, and the earlier line extended by one space and that word
measures strictly more than the maximum width. -/
theorem wrap_greedy (measure : String → ℚ) (maxItemWidth : ℚ) (item : String)
    (i : Nat) (a b : String)
    (ha : (wrapLines measure maxItemWidth item)[i]? = some a)
    (hb : (wrapLines measure maxItemWidth item)[i + 1]? = some b) :
    ∃ w, (Fields b).head? = some w ∧ maxItemWidth < measure (a ++ " " ++ w) := by
  have h := forced_foldl measure maxItemWidth (Fields item) (Fields_ne_empty item)
    (fun w hw => Fields_of_field item w hw) ([], "") (fun _ => rfl)
    (by simp [committed]) (by simp [committed])
  have hwl : wrapLines measure maxItemWidth item =
      committed ((Fields item).foldl (wrapStep measure maxItemWidth) ([], "")) := rfl
  rw [← hwl] at h
  have hmem : b ∈ wrapLines measure maxItemWidth item := List.getElem?_mem hb
  have hne : Fields b ≠ [] := h.1 b hmem
  obtain ⟨w, rest, hwr⟩ := List.exists_cons_of_ne_nil hne
  refine ⟨w, by rw [hwr]; rfl, ?_⟩
  exact chain_at _ _ h.2 i a b ha hb w (by rw [hwr]; rfl)

/-- C14 at a concrete input: with one unit a character and a maximum width of 5, the
item "aa bb cccccccc" breaks after "aa bb", and "aa bb cccccccc" measures 14 > 5. -/
theorem wrap_greedy_witness :
    ∃ w, (Fields "cccccccc").head? = some w ∧ (5 : ℚ) < charCount ("aa bb" ++ " " ++ w) :=
  wrap_greedy charCount 5 "aa bb cccccccc" 0 "aa bb" "cccccccc" (by decide) (by decide)

end InvoicePdf
